import Mathlib

/-!
Verification development for the temporal alignment and sampling engine of
the network-viz repository (`src/viz/scene.ts`, types from `src/viz/types.ts`).

JS `number`s are modelled as rationals (`ℚ`); `Float32Array`/`Float64Array`
become `List ℚ`.  JS `Record`s built by keyed assignment become association
lists read with last-binding-wins semantics (`recordGet`), and JS `Map`s
become association lists read with `mapGet`.
-/

set_option maxHeartbeats 1000000

namespace NetworkViz

/-- Node kind, from `types.ts` (`NodeType = 'host' | 'switch'`). -/
inductive NodeType where
  | host
  | switch
deriving DecidableEq, Repr

/-- Metrics node kind, from `types.ts`. -/
inductive MetricsNodeKind where
  | host
  | tor
  | aggr
deriving DecidableEq, Repr

/-- The `metrics` sub-object of `LinkDef` in `types.ts`. -/
structure LinkMetrics where
  fromId : Int
  fromKind : MetricsNodeKind
  toId : Int
  toKind : MetricsNodeKind
deriving DecidableEq, Repr

/-- `NodeDef` from `types.ts`. -/
structure NodeDef where
  id : String
  type : NodeType
  metricsId : Int
  metricsKind : MetricsNodeKind
  x : ℚ
  y : ℚ
deriving DecidableEq, Repr

/-- `LinkDef` from `types.ts`. -/
structure LinkDef where
  id : String
  a : String
  b : String
  metrics : LinkMetrics
deriving DecidableEq, Repr

/-- `Layout` from `types.ts`. -/
structure Layout where
  nodes : List NodeDef
  links : List LinkDef
deriving DecidableEq, Repr

/-- `LinkSnapshot` from `types.ts`; `CsvDataSource.sample` always sets all
four fields, so the optional queue fields are modelled as present. -/
structure LinkSnapshot where
  aToB : ℚ
  bToA : ℚ
  queueA : ℚ
  queueB : ℚ
deriving DecidableEq, Repr

/-- `NodeSnapshot` from `types.ts` (`bucket` genuinely optional). -/
structure NodeSnapshot where
  queue : ℚ
  bucket : Option ℚ
  hostQueueFromScalar : Bool
deriving DecidableEq, Repr

/-- `Snapshot` from `types.ts`.  The `links`/`nodes` records are kept as the
association lists in which `sample` builds them (assignment order). -/
structure Snapshot where
  t : ℚ
  links : List (String × LinkSnapshot)
  nodes : List (String × NodeSnapshot)
deriving DecidableEq, Repr

/-- `DirectionSeries` from `scene.ts`. -/
structure DirectionSeries where
  throughput : List ℚ
  queue : List ℚ
deriving DecidableEq, Repr

/-- `LinkSeries` from `scene.ts`. -/
structure LinkSeries where
  link : LinkDef
  forward : DirectionSeries
  reverse : DirectionSeries
deriving DecidableEq, Repr

/-- Read of a JS `Map` modelled as an association list (keys unique in a
real `Map`, so first-match lookup agrees with `Map.get`). -/
def mapGet {κ α : Type} [DecidableEq κ] : List (κ × α) → κ → Option α
  | [], _ => none
  | e :: rest, k => if e.1 = k then some e.2 else mapGet rest k

/-- Read of a JS record built by keyed assignment: the latest assignment to
a key wins, so the lookup scans for the last matching entry. -/
def recordGet {α : Type} : List (String × α) → String → Option α
  | [], _ => none
  | e :: rest, k =>
    match recordGet rest k with
    | some v => some v
    | none => if e.1 = k then some e.2 else none

/-- The `CsvDataSource` constructor arguments (its immutable fields). -/
structure CsvDataSource where
  layout : Layout
  timestamps : List ℚ
  linkSeries : List (String × LinkSeries)
  hostBudgetSeries : List (Int × List ℚ)
  hostQueueSeries : List (Int × List ℚ)
deriving DecidableEq, Repr

/-- The mutable seek-cursor state of `CsvDataSource`
(`private lastIndex = 0`, `private lastTime = 0`). -/
structure CsvState where
  lastIndex : ℕ
  lastTime : ℚ
deriving DecidableEq, Repr

/-- Field-initializer state of a freshly constructed `CsvDataSource`. -/
def initState : CsvState := ⟨0, 0⟩

/-- `Math.max` on rationals, written with an explicit `if` so that concrete
instances evaluate inside the kernel.  Equal to `max` (`jsMax_eq`). -/
def jsMax (a b : ℚ) : ℚ := if a ≤ b then b else a

/-- `Math.min` on rationals, written with an explicit `if` so that concrete
instances evaluate inside the kernel.  Equal to `min` (`jsMin_eq`). -/
def jsMin (a b : ℚ) : ℚ := if a ≤ b then a else b

@[simp] theorem jsMax_eq (a b : ℚ) : jsMax a b = max a b := (max_def a b).symm

@[simp] theorem jsMin_eq (a b : ℚ) : jsMin a b = min a b := (min_def a b).symm

/-- `reset()` (sets `lastIndex = 0`, `lastTime = 0`). -/
def reset (_ : CsvState) : CsvState := ⟨0, 0⟩

/-- The `duration` computation of the `CsvDataSource` constructor: the last
timestamp, recomputed as the max over a full scan when the last entry is
not positive (`if (!(duration > 0))`). -/
def computeDuration (ts : List ℚ) : ℚ :=
  match ts with
  | [] => 0
  | _ :: _ =>
    let last := ts.getLastD 0
    if last > 0 then last else ts.foldl jsMax last

/-- `duration` field of `CsvDataSource`. -/
def CsvDataSource.duration (src : CsvDataSource) : ℚ :=
  computeDuration src.timestamps

/-- The clamp `Math.max(0, Math.min(time, this.duration))` used by
`locateIndex` and `sample`. -/
def clampTime (src : CsvDataSource) (time : ℚ) : ℚ :=
  jsMax 0 (jsMin time src.duration)

/-- The `while` loop of `locateIndex`, written with explicit fuel so that it
computes by structural recursion; `advanceCursor` supplies exact fuel.
Advances `i` while `i < ts.length - 2 && clampedTime > ts[i + 1]`. -/
def advanceCursorFuel (ts : List ℚ) (clamped : ℚ) : ℕ → ℕ → ℕ
  | 0, i => i
  | fuel + 1, i =>
    if i < ts.length - 2 ∧ ts.getD (i + 1) 0 < clamped then
      advanceCursorFuel ts clamped fuel (i + 1)
    else i

/-- The `while` loop of `locateIndex`, from its starting cursor `i`. -/
def advanceCursor (ts : List ℚ) (clamped : ℚ) (i : ℕ) : ℕ :=
  advanceCursorFuel ts clamped (ts.length - 2 - i) i

/-- `locateIndex(time)`: clamp, rewind the cursor to 0 when seeking
backwards, then sweep forward; returns the located index together with the
updated cursor state. -/
def locateIndex (src : CsvDataSource) (st : CsvState) (time : ℚ) :
    ℕ × CsvState :=
  let clampedTime := clampTime src time
  let start := if clampedTime < st.lastTime then 0 else st.lastIndex
  let idx := advanceCursor src.timestamps clampedTime start
  (idx, ⟨idx, clampedTime⟩)

/-- `interpolate(series, idx, nextIdx, frac)`:
`v0 = series[idx] ?? 0`, `v1 = series[nextIdx] ?? v0`,
result `v0 + (v1 - v0) * frac`. -/
def interpolate (series : List ℚ) (idx nextIdx : ℕ) (frac : ℚ) : ℚ :=
  let v0 := series.getD idx 0
  let v1 := if nextIdx < series.length then series.getD nextIdx 0 else v0
  v0 + (v1 - v0) * frac

/-- The cursor index used by `sample(time)` (result of `locateIndex` on the
clamped time; `locateIndex` clamps again, which is idempotent). -/
def sampleCursor (src : CsvDataSource) (st : CsvState) (time : ℚ) : ℕ :=
  (locateIndex src st (clampTime src time)).1

/-- The cursor state after `sample(time)`. -/
def sampleState (src : CsvDataSource) (st : CsvState) (time : ℚ) : CsvState :=
  (locateIndex src st (clampTime src time)).2

/-- `nextIdx = Math.min(idx + 1, this.timestamps.length - 1)` in `sample`. -/
def sampleNext (src : CsvDataSource) (st : CsvState) (time : ℚ) : ℕ :=
  min (sampleCursor src st time + 1) (src.timestamps.length - 1)

/-- `t0 = this.timestamps[idx]` in `sample`. -/
def sampleT0 (src : CsvDataSource) (st : CsvState) (time : ℚ) : ℚ :=
  src.timestamps.getD (sampleCursor src st time) 0

/-- `t1 = this.timestamps[nextIdx]` in `sample`. -/
def sampleT1 (src : CsvDataSource) (st : CsvState) (time : ℚ) : ℚ :=
  src.timestamps.getD (sampleNext src st time) 0

/-- `span = t1 > t0 ? t1 - t0 : 1` in `sample`. -/
def sampleSpan (src : CsvDataSource) (st : CsvState) (time : ℚ) : ℚ :=
  if sampleT0 src st time < sampleT1 src st time then
    sampleT1 src st time - sampleT0 src st time
  else 1

/-- `frac = span > 0 ? Math.min(1, Math.max(0, (clamped - t0) / span)) : 0`
in `sample`. -/
def sampleFrac (src : CsvDataSource) (st : CsvState) (time : ℚ) : ℚ :=
  if 0 < sampleSpan src st time then
    jsMin 1 (jsMax 0 ((clampTime src time - sampleT0 src st time) /
      sampleSpan src st time))
  else 0

/-- The per-link snapshot built inside the link loop of `sample`. -/
def mkLinkSnapshot (data : LinkSeries) (idx nextIdx : ℕ) (frac : ℚ) :
    LinkSnapshot :=
  { aToB := jsMax 0 (interpolate data.forward.throughput idx nextIdx frac)
    bToA := jsMax 0 (interpolate data.reverse.throughput idx nextIdx frac)
    queueA := jsMax 0 (interpolate data.forward.queue idx nextIdx frac)
    queueB := jsMax 0 (interpolate data.reverse.queue idx nextIdx frac) }

/-- Accumulator of the link loop of `sample`: the links record plus the
per-node queue sums and counts.  `nodeQueueSum`/`nodeQueueCount` are
modelled as total functions defaulting to 0, which agrees with the JS
objects at every key the node loop later reads (all of them initialized
to 0 before the link loop). -/
structure LinkPass where
  links : List (String × LinkSnapshot)
  qsum : String → ℚ
  qcount : String → ℕ

/-- One iteration of the link loop of `sample`: links without series data
are skipped; otherwise interpolate both directions, clamp the queue values,
record the link snapshot and accumulate the endpoint queue sums/counts. -/
def linkStep (src : CsvDataSource) (idx nextIdx : ℕ) (frac : ℚ)
    (acc : LinkPass) (link : LinkDef) : LinkPass :=
  match mapGet src.linkSeries link.id with
  | none => acc
  | some data =>
    let snap := mkLinkSnapshot data idx nextIdx frac
    { links := acc.links ++ [(link.id, snap)]
      qsum := fun k =>
        acc.qsum k + (if link.a = k then snap.queueA else 0) +
          (if link.b = k then snap.queueB else 0)
      qcount := fun k =>
        acc.qcount k + (if link.a = k then 1 else 0) +
          (if link.b = k then 1 else 0) }

/-- The whole link loop of `sample`. -/
def linkPass (src : CsvDataSource) (idx nextIdx : ℕ) (frac : ℚ) : LinkPass :=
  src.layout.links.foldl (linkStep src idx nextIdx frac)
    ⟨[], fun _ => 0, fun _ => 0⟩

/-- One iteration of the node loop of `sample`: average of the accumulated
incident queue values (0 when no incident link contributed); hosts override
the average with their scalar queue series when present and expose their
budget series through `bucket`. -/
def nodeSnapshotFor (src : CsvDataSource) (idx nextIdx : ℕ) (frac : ℚ)
    (qsum : String → ℚ) (qcount : String → ℕ) (node : NodeDef) :
    NodeSnapshot :=
  let count := qcount node.id
  let avg := if 0 < count then qsum node.id / (count : ℚ) else 0
  let bucketValue : Option ℚ :=
    if node.type = NodeType.host then
      (mapGet src.hostBudgetSeries node.metricsId).map
        (fun s => jsMax 0 (interpolate s idx nextIdx frac))
    else none
  let hostQueueValue : Option ℚ :=
    if node.type = NodeType.host then
      (mapGet src.hostQueueSeries node.metricsId).map
        (fun s => jsMax 0 (interpolate s idx nextIdx frac))
    else none
  let queueValue :=
    if node.type = NodeType.host then jsMax 0 (hostQueueValue.getD avg)
    else jsMax 0 avg
  { queue := queueValue
    bucket := bucketValue
    hostQueueFromScalar :=
      if node.type = NodeType.host then
        (mapGet src.hostQueueSeries node.metricsId).isSome
      else false }

/-- `sample(time)`: empty grid short-circuits to an empty snapshot; else
clamp, locate the bracketing indices, compute the interpolation fraction,
run the link loop then the node loop.  Returns the snapshot together with
the updated cursor state. -/
def sample (src : CsvDataSource) (st : CsvState) (time : ℚ) :
    Snapshot × CsvState :=
  if src.timestamps.length = 0 then (⟨0, [], []⟩, st)
  else
    let idx := sampleCursor src st time
    let nextIdx := sampleNext src st time
    let frac := sampleFrac src st time
    let lp := linkPass src idx nextIdx frac
    let nodes := src.layout.nodes.map
      (fun n => (n.id, nodeSnapshotFor src idx nextIdx frac lp.qsum lp.qcount n))
    (⟨clampTime src time, lp.links, nodes⟩, sampleState src st time)

/-- Folding a sequence of `sample` calls over the cursor state. -/
def runSamples (src : CsvDataSource) (st : CsvState) (times : List ℚ) :
    CsvState :=
  times.foldl (fun s t => (sample src s t).2) st

/-- An operation on a `CsvDataSource`: a `sample(t)` call or a `reset()`. -/
inductive Op where
  | sampleOp (t : ℚ)
  | resetOp
deriving DecidableEq, Repr

/-- Apply one operation to the cursor state. -/
def applyOp (src : CsvDataSource) (st : CsvState) : Op → CsvState
  | Op.sampleOp t => (sample src st t).2
  | Op.resetOp => reset st

/-- Run a sequence of operations from a given cursor state. -/
def runOps (src : CsvDataSource) (st : CsvState) (ops : List Op) : CsvState :=
  ops.foldl (applyOp src) st


/-! ### Cursor sweep lemmas -/

/-- Unfolding equation of the `locateIndex` loop: the supplied fuel is
exactly the number of remaining slots, so `advanceCursor` satisfies the
loop's natural recurrence. -/
theorem advanceCursor_eq (ts : List ℚ) (c : ℚ) (i : ℕ) :
    advanceCursor ts c i =
      if i < ts.length - 2 ∧ ts.getD (i + 1) 0 < c then
        advanceCursor ts c (i + 1)
      else i := by
  by_cases h : i < ts.length - 2
  · have hfuel : ts.length - 2 - i = (ts.length - 2 - (i + 1)) + 1 := by omega
    simp only [advanceCursor, hfuel, advanceCursorFuel]
  · have hfuel : ts.length - 2 - i = 0 := by omega
    have hcond : ¬(i < ts.length - 2 ∧ ts.getD (i + 1) 0 < c) := fun hc => h hc.1
    simp only [advanceCursor, hfuel, advanceCursorFuel, if_neg hcond]

/-- The sweep never moves the cursor below its start. -/
theorem advanceCursor_ge (ts : List ℚ) (c : ℚ) (i : ℕ) :
    i ≤ advanceCursor ts c i := by
  generalize hn : ts.length - 2 - i = n
  induction n generalizing i with
  | zero =>
    rw [advanceCursor_eq]
    have : ¬(i < ts.length - 2 ∧ ts.getD (i + 1) 0 < c) := fun hc => by omega
    rw [if_neg this]
  | succ n ih =>
    rw [advanceCursor_eq]
    by_cases hc : i < ts.length - 2 ∧ ts.getD (i + 1) 0 < c
    · rw [if_pos hc]
      have := ih (i + 1) (by omega)
      omega
    · rw [if_neg hc]

/-- The sweep keeps the cursor within `length - 2` when it starts there. -/
theorem advanceCursor_le_sub (ts : List ℚ) (c : ℚ) (i : ℕ)
    (h : i ≤ ts.length - 2) :
    advanceCursor ts c i ≤ ts.length - 2 := by
  generalize hn : ts.length - 2 - i = n
  induction n generalizing i with
  | zero =>
    rw [advanceCursor_eq]
    have : ¬(i < ts.length - 2 ∧ ts.getD (i + 1) 0 < c) := fun hc => by omega
    rw [if_neg this]
    exact h
  | succ n ih =>
    rw [advanceCursor_eq]
    by_cases hc : i < ts.length - 2 ∧ ts.getD (i + 1) 0 < c
    · rw [if_pos hc]
      exact ih (i + 1) (by omega) (by omega)
    · rw [if_neg hc]
      exact h

/-- When the sweep halts, the loop condition fails at the final cursor. -/
theorem advanceCursor_stop (ts : List ℚ) (c : ℚ) (i : ℕ) :
    ¬(advanceCursor ts c i < ts.length - 2 ∧
        ts.getD (advanceCursor ts c i + 1) 0 < c) := by
  generalize hn : ts.length - 2 - i = n
  induction n generalizing i with
  | zero =>
    rw [advanceCursor_eq]
    have hcond : ¬(i < ts.length - 2 ∧ ts.getD (i + 1) 0 < c) := fun hc => by omega
    rw [if_neg hcond]
    exact hcond
  | succ n ih =>
    rw [advanceCursor_eq]
    by_cases hc : i < ts.length - 2 ∧ ts.getD (i + 1) 0 < c
    · rw [if_pos hc]
      exact ih (i + 1) (by omega)
    · rw [if_neg hc]
      exact hc

/-- Sweeping with a smaller clamped time and then with a larger one lands
exactly where the single larger sweep lands: the cached cursor of a
monotone playback never changes the located index. -/
theorem advanceCursor_trans (ts : List ℚ) (c c' : ℚ) (hcc : c' ≤ c) (i : ℕ) :
    advanceCursor ts c (advanceCursor ts c' i) = advanceCursor ts c i := by
  generalize hn : ts.length - 2 - i = n
  induction n generalizing i with
  | zero =>
    rw [advanceCursor_eq ts c' i]
    have : ¬(i < ts.length - 2 ∧ ts.getD (i + 1) 0 < c') := fun hc => by omega
    rw [if_neg this]
  | succ n ih =>
    rw [advanceCursor_eq ts c' i]
    by_cases hc' : i < ts.length - 2 ∧ ts.getD (i + 1) 0 < c'
    · rw [if_pos hc', ih (i + 1) (by omega)]
      have hcond : i < ts.length - 2 ∧ ts.getD (i + 1) 0 < c :=
        ⟨hc'.1, lt_of_lt_of_le hc'.2 hcc⟩
      rw [advanceCursor_eq ts c i, if_pos hcond]
    · rw [if_neg hc']

/-- The sweep lands at `m` when every slot before `m` passes the loop
condition and `m` itself fails it. -/
theorem advanceCursor_eq_of (ts : List ℚ) (c : ℚ) (i m : ℕ) (him : i ≤ m)
    (hpath : ∀ j, i ≤ j → j < m → j < ts.length - 2 ∧ ts.getD (j + 1) 0 < c)
    (hstop : ¬(m < ts.length - 2 ∧ ts.getD (m + 1) 0 < c)) :
    advanceCursor ts c i = m := by
  generalize hn : m - i = n
  induction n generalizing i with
  | zero =>
    have : i = m := by omega
    subst this
    rw [advanceCursor_eq, if_neg hstop]
  | succ n ih =>
    have hi : i < m := by omega
    have hcond := hpath i (le_refl i) hi
    rw [advanceCursor_eq, if_pos hcond]
    exact ih (i + 1) (by omega) (fun j h1 h2 => hpath j (by omega) h2) (by omega)

/-! ### Reset/seek state invariant -/

/-- Cursor states reachable by the engine: the cached cursor is exactly
what a from-zero sweep at any later query time would pass through, and the
cached time is non-negative. -/
def goodState (src : CsvDataSource) (st : CsvState) : Prop :=
  0 ≤ st.lastTime ∧
  ∀ c, st.lastTime ≤ c →
    advanceCursor src.timestamps c st.lastIndex =
      advanceCursor src.timestamps c 0

/-- The fresh-construction state is good. -/
theorem goodState_init (src : CsvDataSource) : goodState src initState :=
  ⟨le_refl 0, fun _ _ => rfl⟩

/-- The clamp used by `locateIndex`/`sample` always lands at 0 or above. -/
theorem clampTime_nonneg (src : CsvDataSource) (t : ℚ) :
    0 ≤ clampTime src t := by
  simp [clampTime]

/-- Clamping twice is the same as clamping once. -/
theorem clampTime_idem (src : CsvDataSource) (t : ℚ) :
    clampTime src (clampTime src t) = clampTime src t := by
  simp only [clampTime, jsMax_eq, jsMin_eq]
  rcases le_total (min t src.duration) 0 with h | h
  · rw [max_eq_left h]
    rcases le_total 0 src.duration with hd | hd
    · rw [min_eq_left hd, max_self]
    · rw [min_eq_right hd, max_eq_left hd]
  · rw [max_eq_right h, min_eq_left (min_le_right t src.duration),
      max_eq_right h]

/-- From a good state, `locateIndex` behaves exactly as from the fresh
state: the cache is invisible. -/
theorem locateIndex_eq_of_good (src : CsvDataSource) (st : CsvState)
    (h : goodState src st) (t : ℚ) :
    locateIndex src st (clampTime src t) =
      locateIndex src initState (clampTime src t) := by
  obtain ⟨h0, hadv⟩ := h
  simp only [locateIndex, initState, clampTime_idem]
  have hrhs : ¬ clampTime src t < (0 : ℚ) := not_lt.mpr (clampTime_nonneg src t)
  rw [if_neg hrhs]
  by_cases hlt : clampTime src t < st.lastTime
  · rw [if_pos hlt]
  · rw [if_neg hlt, hadv (clampTime src t) (not_lt.mp hlt)]

/-- From a good state, `sample` returns exactly the snapshot it returns
from the fresh state: the cached cursor is invisible in the result. -/
theorem sample_fst_eq_of_good (src : CsvDataSource) (st : CsvState)
    (h : goodState src st) (t : ℚ) :
    (sample src st t).1 = (sample src initState t).1 := by
  simp only [sample, sampleCursor, sampleNext, sampleT0, sampleT1,
    sampleSpan, sampleFrac, sampleState, locateIndex_eq_of_good src st h t]
  by_cases hlen : src.timestamps.length = 0
  · rw [if_pos hlen, if_pos hlen]
  · rw [if_neg hlen, if_neg hlen]

/-- Every `sample` call preserves goodness of the cursor state. -/
theorem goodState_sample (src : CsvDataSource) (st : CsvState)
    (h : goodState src st) (t : ℚ) :
    goodState src (sample src st t).2 := by
  simp only [sample]
  by_cases hlen : src.timestamps.length = 0
  · rw [if_pos hlen]
    exact h
  · rw [if_neg hlen]
    simp only [sampleState, locateIndex, clampTime_idem]
    constructor
    · exact clampTime_nonneg src t
    · intro c hc
      by_cases hlt : clampTime src t < st.lastTime
      · rw [if_pos hlt]
        exact advanceCursor_trans src.timestamps c (clampTime src t) hc 0
      · rw [if_neg hlt, h.2 (clampTime src t) (not_lt.mp hlt)]
        exact advanceCursor_trans src.timestamps c (clampTime src t) hc 0

/-- Goodness is preserved by any sequence of `sample` calls. -/
theorem goodState_runSamples (src : CsvDataSource) (st : CsvState)
    (h : goodState src st) (times : List ℚ) :
    goodState src (runSamples src st times) := by
  induction times generalizing st with
  | nil => exact h
  | cons t rest ih => exact ih _ (goodState_sample src st h t)

/-- Goodness is preserved by `reset` as well. -/
theorem goodState_applyOp (src : CsvDataSource) (st : CsvState)
    (h : goodState src st) (op : Op) :
    goodState src (applyOp src st op) := by
  cases op with
  | sampleOp t => exact goodState_sample src st h t
  | resetOp => exact goodState_init src

/-- C1: for every Series Store and query time `t`, sampling `t` through a
monotonically increasing sequence of `sample()` calls ending at `t` yields
the same Snapshot as calling `reset()` (the fresh cursor state) and then
`sample(t)` directly: the seek-cursor caching in `locateIndex` does not
change the result of `sample`. -/
theorem seek_playback_equivalence (src : CsvDataSource) (times : List ℚ)
    (t : ℚ) (hmono : times.Chain' (· ≤ ·)) (hend : ∀ s ∈ times, s ≤ t) :
    (sample src (runSamples src initState times) t).1 =
      (sample src initState t).1 := by
  exact sample_fst_eq_of_good src _
    (goodState_runSamples src initState (goodState_init src) times) t

/-- C9: `reset()` restores the cursor state to its field-initializer
values, and `sample(0)` right after `reset()` is identical to `sample(0)`
on a freshly constructed engine over the same Series Store. -/
theorem reset_equivalence (src : CsvDataSource) (st : CsvState) :
    reset st = initState ∧
    (sample src (reset st) 0).1 = (sample src initState 0).1 :=
  ⟨rfl, rfl⟩

/-- One engine operation keeps the cursor within `length - 2`. -/
theorem applyOp_lastIndex_le (src : CsvDataSource) (st : CsvState)
    (h : st.lastIndex ≤ src.timestamps.length - 2) (op : Op) :
    (applyOp src st op).lastIndex ≤ src.timestamps.length - 2 := by
  cases op with
  | resetOp => exact Nat.zero_le _
  | sampleOp t =>
    simp only [applyOp, sample]
    by_cases hlen : src.timestamps.length = 0
    · rw [if_pos hlen]
      exact h
    · rw [if_neg hlen]
      simp only [sampleState, locateIndex]
      by_cases hlt : clampTime src (clampTime src t) < st.lastTime
      · rw [if_pos hlt]
        exact advanceCursor_le_sub _ _ 0 (Nat.zero_le _)
      · rw [if_neg hlt]
        exact advanceCursor_le_sub _ _ st.lastIndex h

/-- Any operation sequence keeps the cursor within `length - 2`. -/
theorem runOps_lastIndex_le (src : CsvDataSource) (st : CsvState)
    (h : st.lastIndex ≤ src.timestamps.length - 2) (ops : List Op) :
    (runOps src st ops).lastIndex ≤ src.timestamps.length - 2 := by
  induction ops generalizing st with
  | nil => exact h
  | cons op rest ih => exact ih _ (applyOp_lastIndex_le src st h op)

/-- C10: over every sequence of `sample`/`reset` calls, the internal
cursor `lastIndex` stays within `[0, max(0, N-2)]` (here `N - 2` in
truncated subtraction); consequently, on a non-empty grid both the cursor
and the min-clamped `cursor + 1` are in-bounds for the timestamp and
metric arrays. -/
theorem cursor_stays_in_bounds (src : CsvDataSource) (ops : List Op) :
    (runOps src initState ops).lastIndex ≤ src.timestamps.length - 2 ∧
    (0 < src.timestamps.length →
      (runOps src initState ops).lastIndex < src.timestamps.length ∧
      min ((runOps src initState ops).lastIndex + 1)
        (src.timestamps.length - 1) < src.timestamps.length) := by
  have hle := runOps_lastIndex_le src initState (Nat.zero_le _) ops
  refine ⟨hle, fun hpos => ⟨by omega, ?_⟩⟩
  have := Nat.min_le_right ((runOps src initState ops).lastIndex + 1)
    (src.timestamps.length - 1)
  omega

/-! ### Sorted-grid helpers -/

/-- `getLastD` is the `getD` at the final index, for non-empty lists. -/
theorem getLastD_eq_getD (l : List ℚ) (h : l ≠ []) :
    l.getLastD 0 = l.getD (l.length - 1) 0 := by
  have hlt : l.length - 1 < l.length := by
    have := List.length_pos.mpr h
    omega
  rw [List.getD_eq_getElem l 0 hlt, ← List.getLast_eq_getElem l h,
    List.getLastD_eq_getLast?, List.getLast?_eq_getLast l h]
  rfl

/-- Monotone access for nondecreasing grids. -/
theorem sorted_getD_le (ts : List ℚ) (hsort : ts.Sorted (· ≤ ·))
    (i j : ℕ) (hij : i ≤ j) (hj : j < ts.length) :
    ts.getD i 0 ≤ ts.getD j 0 := by
  rcases Nat.lt_or_ge i j with hlt | hge
  · have hi : i < ts.length := lt_trans hlt hj
    rw [List.getD_eq_getElem ts 0 hi, List.getD_eq_getElem ts 0 hj]
    exact List.pairwise_iff_get.mp hsort ⟨i, hi⟩ ⟨j, hj⟩ hlt
  · have : i = j := by omega
    rw [this]

/-- Strictly monotone access for strictly increasing grids. -/
theorem sorted_getD_lt (ts : List ℚ) (hsort : ts.Sorted (· < ·))
    (i j : ℕ) (hij : i < j) (hj : j < ts.length) :
    ts.getD i 0 < ts.getD j 0 := by
  have hi : i < ts.length := lt_trans hij hj
  rw [List.getD_eq_getElem ts 0 hi, List.getD_eq_getElem ts 0 hj]
  exact List.pairwise_iff_get.mp hsort ⟨i, hi⟩ ⟨j, hj⟩ hij

/-- A `jsMax` fold over elements bounded by the seed keeps the seed. -/
theorem foldl_jsMax_of_le (l : List ℚ) (b : ℚ) (h : ∀ x ∈ l, x ≤ b) :
    l.foldl jsMax b = b := by
  induction l with
  | nil => rfl
  | cons a l ih =>
    have hab : jsMax b a = b := by
      rw [jsMax_eq]
      exact max_eq_left (h a (by simp))
    simp only [List.foldl_cons, hab]
    exact ih (fun x hx => h x (by simp [hx]))

/-- On a nondecreasing grid whose first timestamp is at 0, the computed
duration is exactly the final timestamp (which is non-negative). -/
theorem computeDuration_sorted (ts : List ℚ) (hne : ts ≠ [])
    (hsort : ts.Sorted (· ≤ ·)) (hz : 0 ≤ ts.getD 0 0) :
    computeDuration ts = ts.getLastD 0 ∧ 0 ≤ ts.getLastD 0 := by
  have hlenpos : 0 < ts.length := List.length_pos.mpr hne
  have hlast0 : 0 ≤ ts.getLastD 0 := by
    have h := sorted_getD_le ts hsort 0 (ts.length - 1) (by omega)
      (by omega)
    rw [getLastD_eq_getD ts hne]
    exact le_trans hz h
  refine ⟨?_, hlast0⟩
  have hbound : ∀ x ∈ ts, x ≤ ts.getLastD 0 := by
    intro x hx
    obtain ⟨i, hget⟩ := List.mem_iff_get.mp hx
    have hxi : x = ts.getD i 0 := by
      rw [← hget, List.getD_eq_getElem ts 0 i.isLt, List.get_eq_getElem]
    rw [getLastD_eq_getD ts hne, hxi]
    exact sorted_getD_le ts hsort i (ts.length - 1) (by omega) (by omega)
  cases ts with
  | nil => exact absurd rfl hne
  | cons a l =>
    simp only [computeDuration]
    by_cases hpos : (a :: l).getLastD 0 > 0
    · rw [if_pos hpos]
    · rw [if_neg hpos]
      exact foldl_jsMax_of_le _ _ hbound

/-! ### Concrete example stores -/

/-- Example link metadata used by concrete stores. -/
def mEx : LinkMetrics := ⟨0, MetricsNodeKind.host, 1, MetricsNodeKind.tor⟩

/-- Example link between nodes `a` and `b`. -/
def lkEx : LinkDef := ⟨"l", "a", "b", mEx⟩

/-- Example switch node. -/
def ndA : NodeDef := ⟨"a", NodeType.switch, 0, MetricsNodeKind.tor, 0, 0⟩

/-- Example host node. -/
def ndB : NodeDef := ⟨"b", NodeType.host, 1, MetricsNodeKind.host, 0, 0⟩

/-- Example per-link series data over a 4-point grid. -/
def lsEx : LinkSeries :=
  ⟨lkEx, ⟨[10, 20, 30, 40], [1, 2, 3, 4]⟩, ⟨[5, 6, 7, 8], [2, 3, 4, 5]⟩⟩

/-- A small well-formed Series Store over the grid `[0, 1, 2, 3]`. -/
def csvEx : CsvDataSource :=
  { layout := ⟨[ndA, ndB], [lkEx]⟩
    timestamps := [0, 1, 2, 3]
    linkSeries := [("l", lsEx)]
    hostBudgetSeries := []
    hostQueueSeries := [] }

/-- A store whose grid `[0, -1, -1]` is zero-based but not sorted (the grid
is expected, not assumed, to be sorted). -/
def csvC4 : CsvDataSource := ⟨⟨[], []⟩, [0, -1, -1], [], [], []⟩

/-- A store whose grid `[0, 5, 3]` ends in a positive entry that is not the
grid maximum. -/
def csvC5 : CsvDataSource := ⟨⟨[], []⟩, [0, 5, 3], [], [], []⟩

/-! ### C4: interpolation fraction -/

/-- From the fresh state, `sample`'s cursor is the from-zero sweep. -/
theorem sampleCursor_init (src : CsvDataSource) (t : ℚ) :
    sampleCursor src initState t =
      advanceCursor src.timestamps (clampTime src t) 0 := by
  simp only [sampleCursor, locateIndex, clampTime_idem, initState]
  rw [if_neg (not_lt.mpr (clampTime_nonneg src t))]

/-- The from-zero sweep stops at 0 or at an index whose timestamp was
strictly passed by the clamped time. -/
theorem advanceCursor_entered (ts : List ℚ) (c : ℚ) (i : ℕ) :
    advanceCursor ts c i = i ∨ ts.getD (advanceCursor ts c i) 0 < c := by
  generalize hn : ts.length - 2 - i = n
  induction n generalizing i with
  | zero =>
    rw [advanceCursor_eq]
    have : ¬(i < ts.length - 2 ∧ ts.getD (i + 1) 0 < c) := fun hc => by omega
    rw [if_neg this]
    exact Or.inl rfl
  | succ n ih =>
    rw [advanceCursor_eq]
    by_cases hc : i < ts.length - 2 ∧ ts.getD (i + 1) 0 < c
    · rw [if_pos hc]
      rcases ih (i + 1) (by omega) with h | h
      · rw [h]
        exact Or.inr hc.2
      · exact Or.inr h
    · rw [if_neg hc]
      exact Or.inl rfl

/-- On a sorted zero-based grid, the clamped time lies at or above the
timestamp under the located cursor. -/
theorem sampleT0_le_clamp (src : CsvDataSource) (t : ℚ)
    (hz : src.timestamps.getD 0 0 = 0) :
    sampleT0 src initState t ≤ clampTime src t := by
  rw [sampleT0, sampleCursor_init]
  rcases advanceCursor_entered src.timestamps (clampTime src t) 0 with h | h
  · rw [h, hz]
    exact clampTime_nonneg src t
  · exact le_of_lt h

/-- When the duration is non-negative, the clamp stays below it. -/
theorem clamp_le_duration (src : CsvDataSource) (h0 : 0 ≤ src.duration)
    (t : ℚ) : clampTime src t ≤ src.duration := by
  rw [clampTime, jsMax_eq, jsMin_eq]
  exact max_le h0 (min_le_right t src.duration)

/-- On a sorted zero-based grid, the clamped time lies at or below the
timestamp at the min-clamped successor of the located cursor. -/
theorem clamp_le_sampleT1 (src : CsvDataSource) (t : ℚ)
    (hne : src.timestamps ≠ []) (hsort : src.timestamps.Sorted (· ≤ ·))
    (hz : src.timestamps.getD 0 0 = 0) :
    clampTime src t ≤ sampleT1 src initState t := by
  have hlen : 0 < src.timestamps.length := List.length_pos.mpr hne
  obtain ⟨hdur, hlast0⟩ := computeDuration_sorted src.timestamps hne hsort
    (le_of_eq hz.symm)
  have hdur' : src.duration = src.timestamps.getLastD 0 := hdur
  have hcd : clampTime src t ≤ src.duration :=
    clamp_le_duration src (by rw [hdur']; exact hlast0) t
  have hstop := advanceCursor_stop src.timestamps (clampTime src t) 0
  have hle := advanceCursor_le_sub src.timestamps (clampTime src t) 0
    (Nat.zero_le _)
  rw [sampleT1, sampleNext, sampleCursor_init]
  by_cases hcase :
      advanceCursor src.timestamps (clampTime src t) 0 <
        src.timestamps.length - 2
  · have hnot : ¬ src.timestamps.getD
        (advanceCursor src.timestamps (clampTime src t) 0 + 1) 0 <
          clampTime src t := fun hl => hstop ⟨hcase, hl⟩
    have hmin : min (advanceCursor src.timestamps (clampTime src t) 0 + 1)
        (src.timestamps.length - 1) =
          advanceCursor src.timestamps (clampTime src t) 0 + 1 := by omega
    rw [hmin]
    exact not_lt.mp hnot
  · have hmin : min (advanceCursor src.timestamps (clampTime src t) 0 + 1)
        (src.timestamps.length - 1) = src.timestamps.length - 1 := by omega
    rw [hmin, ← getLastD_eq_getD src.timestamps hne, ← hdur']
    exact hcd

/-- C4 (amended): on a grid sorted nondecreasing and zero-based (first
timestamp 0, as the loader guarantees), with `t0`/`t1` the timestamps at
the cursor and its min-clamped successor: when `t1 > t0` the interpolation
fraction equals `(t̂ - t0) / (t1 - t0)` for the clamped query time `t̂`
(the defensive clamp of the fraction into [0, 1] is the identity there),
and when the span is zero-length (`t1 = t0`) the fraction is 0.  On
unsorted grids the code instead substitutes a span of 1, which can produce
a non-zero fraction on a zero-length span (see the counterexample). -/
theorem frac_formula (src : CsvDataSource) (t : ℚ)
    (hsort : src.timestamps.Sorted (· ≤ ·))
    (hz : src.timestamps.getD 0 0 = 0) (hne : src.timestamps ≠ []) :
    (sampleT0 src initState t < sampleT1 src initState t →
      sampleFrac src initState t =
        (clampTime src t - sampleT0 src initState t) /
          (sampleT1 src initState t - sampleT0 src initState t)) ∧
    (sampleT1 src initState t = sampleT0 src initState t →
      sampleFrac src initState t = 0) := by
  have h0c := sampleT0_le_clamp src t hz
  have hc1 := clamp_le_sampleT1 src t hne hsort hz
  constructor
  · intro hlt
    have hspan : sampleSpan src initState t =
        sampleT1 src initState t - sampleT0 src initState t := by
      rw [sampleSpan, if_pos hlt]
    have hspanpos : (0 : ℚ) <
        sampleT1 src initState t - sampleT0 src initState t :=
      sub_pos.mpr hlt
    rw [sampleFrac, hspan, if_pos hspanpos, jsMin_eq, jsMax_eq]
    have hnum0 : (0 : ℚ) ≤
        (clampTime src t - sampleT0 src initState t) /
          (sampleT1 src initState t - sampleT0 src initState t) :=
      div_nonneg (sub_nonneg.mpr h0c) (le_of_lt hspanpos)
    rw [max_eq_right hnum0]
    have hle1 : (clampTime src t - sampleT0 src initState t) /
        (sampleT1 src initState t - sampleT0 src initState t) ≤ 1 :=
      (div_le_one hspanpos).mpr (by linarith)
    rw [min_eq_right hle1]
  · intro heq
    have hnot : ¬ sampleT0 src initState t < sampleT1 src initState t := by
      rw [heq]
      exact lt_irrefl _
    have hspan : sampleSpan src initState t = 1 := by
      rw [sampleSpan, if_neg hnot]
    rw [sampleFrac, hspan, if_pos one_pos, jsMin_eq, jsMax_eq]
    have hle : (clampTime src t - sampleT0 src initState t) / 1 ≤ 0 := by
      rw [div_one]
      linarith [heq ▸ hc1]
    rw [max_eq_left hle, min_eq_right (by norm_num : (0:ℚ) ≤ 1)]

/-- C4 counterexample: on the store whose grid is the zero-based but
unsorted `[0, -1, -1]`, sampling at time 0 brackets a zero-length span
(`t1 = t0 = -1`), yet the fraction used is 1, not 0: the code substitutes
a span of 1 instead of forcing the fraction to 0. -/
theorem frac_zero_span_counterexample :
    sampleT1 csvC4 initState 0 = sampleT0 csvC4 initState 0 ∧
    sampleFrac csvC4 initState 0 = 1 := by
  constructor <;>
    norm_num [sampleT1, sampleT0, sampleFrac, sampleSpan, sampleNext,
      sampleCursor, locateIndex, clampTime, CsvDataSource.duration,
      computeDuration, advanceCursor, advanceCursorFuel, jsMax, jsMin,
      initState, csvC4]

/-- C4 witness: on the sorted zero-based grid `[0, 1, 2, 3]` the amended
fraction formula applies at query time 3/2. -/
theorem frac_formula_witness :
    csvEx.timestamps.Sorted (· ≤ ·) ∧ csvEx.timestamps.getD 0 0 = 0 ∧
    csvEx.timestamps ≠ [] ∧
    ((sampleT0 csvEx initState (3/2) < sampleT1 csvEx initState (3/2) →
      sampleFrac csvEx initState (3/2) =
        (clampTime csvEx (3/2) - sampleT0 csvEx initState (3/2)) /
          (sampleT1 csvEx initState (3/2) - sampleT0 csvEx initState (3/2))) ∧
    (sampleT1 csvEx initState (3/2) = sampleT0 csvEx initState (3/2) →
      sampleFrac csvEx initState (3/2) = 0)) :=
  ⟨by decide, by decide, by decide,
    frac_formula csvEx (3/2) (by decide) (by decide) (by decide)⟩

/-! ### C5: clamping and duration -/

/-- C5 (amended): `sample(t)` clamps `t` to `[0, duration]`; `duration` is
the grid's final timestamp when that entry is positive, and otherwise (not
whenever the final entry fails to be the maximum) it is the maximum found
by a full scan seeded with the final entry. -/
theorem clamp_and_duration (src : CsvDataSource) (st : CsvState) (t : ℚ)
    (hne : src.timestamps ≠ []) :
    (0 < src.timestamps.getLastD 0 →
      src.duration = src.timestamps.getLastD 0) ∧
    (¬ 0 < src.timestamps.getLastD 0 →
      src.duration =
        src.timestamps.foldl jsMax (src.timestamps.getLastD 0)) ∧
    (sample src st t).1.t = jsMax 0 (jsMin t src.duration) ∧
    0 ≤ (sample src st t).1.t ∧
    (0 ≤ src.duration → (sample src st t).1.t ≤ src.duration) := by
  have hlen : src.timestamps.length ≠ 0 := by
    have := List.length_pos.mpr hne
    omega
  have hsnap : (sample src st t).1.t = clampTime src t := by
    simp only [sample, if_neg hlen]
  have hdur : (0 < src.timestamps.getLastD 0 →
      src.duration = src.timestamps.getLastD 0) ∧
      (¬ 0 < src.timestamps.getLastD 0 →
        src.duration =
          src.timestamps.foldl jsMax (src.timestamps.getLastD 0)) := by
    cases hts : src.timestamps with
    | nil => exact absurd hts hne
    | cons a l =>
      constructor
      · intro hpos
        show computeDuration src.timestamps = _
        rw [hts]
        simp only [computeDuration]
        rw [if_pos hpos]
      · intro hpos
        show computeDuration src.timestamps = _
        rw [hts]
        simp only [computeDuration]
        rw [if_neg hpos]
  refine ⟨hdur.1, hdur.2, ?_, ?_, ?_⟩
  · rw [hsnap]
    rfl
  · rw [hsnap]
    exact clampTime_nonneg src t
  · intro h0
    rw [hsnap]
    exact clamp_le_duration src h0 t

/-- C5 counterexample: on the grid `[0, 5, 3]` the final entry 3 is
positive but is not the grid maximum 5, so the claim's defensive scan
would make the duration 5; the code only scans when the final entry is not
positive, and keeps duration 3. -/
theorem duration_scan_counterexample :
    csvC5.timestamps.getLastD 0 ≠
      csvC5.timestamps.foldl jsMax (csvC5.timestamps.getLastD 0) ∧
    csvC5.timestamps.foldl jsMax (csvC5.timestamps.getLastD 0) = 5 ∧
    csvC5.duration = 3 := by
  refine ⟨by decide, by decide, by decide⟩

/-- C5 witness: the amended clamp/duration description holds on the
concrete store with grid `[0, 1, 2, 3]` at the out-of-range query time 7. -/
theorem clamp_and_duration_witness :
    csvEx.timestamps ≠ [] ∧
    ((0 < csvEx.timestamps.getLastD 0 →
      csvEx.duration = csvEx.timestamps.getLastD 0) ∧
    (¬ 0 < csvEx.timestamps.getLastD 0 →
      csvEx.duration =
        csvEx.timestamps.foldl jsMax (csvEx.timestamps.getLastD 0)) ∧
    (sample csvEx initState 7).1.t = jsMax 0 (jsMin 7 csvEx.duration) ∧
    0 ≤ (sample csvEx initState 7).1.t ∧
    (0 ≤ csvEx.duration → (sample csvEx initState 7).1.t ≤ csvEx.duration)) :=
  ⟨by decide, clamp_and_duration csvEx initState 7 (by decide)⟩

/-- C1 witness: playing the monotone sequence `[0, 1]` and then sampling 2
matches sampling 2 directly from the fresh state on the concrete store. -/
theorem seek_playback_equivalence_witness :
    List.Chain' (· ≤ ·) [(0:ℚ), 1] ∧ (∀ s ∈ [(0:ℚ), 1], s ≤ 2) ∧
    (sample csvEx (runSamples csvEx initState [0, 1]) 2).1 =
      (sample csvEx initState 2).1 :=
  ⟨by simp, by norm_num,
    seek_playback_equivalence csvEx [0, 1] 2 (by simp) (by norm_num)⟩

/-- C10 witness: the cursor bound holds after a concrete mixed run of
forward samples, a rewind, a reset and another sample. -/
theorem cursor_stays_in_bounds_witness :
    (runOps csvEx initState
      [Op.sampleOp 2, Op.sampleOp 1, Op.resetOp, Op.sampleOp 3]).lastIndex ≤
        csvEx.timestamps.length - 2 ∧
    (0 < csvEx.timestamps.length →
      (runOps csvEx initState
        [Op.sampleOp 2, Op.sampleOp 1, Op.resetOp, Op.sampleOp 3]).lastIndex <
          csvEx.timestamps.length ∧
      min ((runOps csvEx initState
        [Op.sampleOp 2, Op.sampleOp 1, Op.resetOp, Op.sampleOp 3]).lastIndex + 1)
        (csvEx.timestamps.length - 1) < csvEx.timestamps.length) :=
  cursor_stays_in_bounds csvEx
    [Op.sampleOp 2, Op.sampleOp 1, Op.resetOp, Op.sampleOp 3]

/-! ### C3: node aggregation over incident links -/

/-- The record entry the link loop produces for one link (`none` when the
link has no series data). -/
def linkEntry (src : CsvDataSource) (idx nextIdx : ℕ) (frac : ℚ)
    (l : LinkDef) : Option (String × LinkSnapshot) :=
  (mapGet src.linkSeries l.id).map
    (fun d => (l.id, mkLinkSnapshot d idx nextIdx frac))

/-- The queue values one link contributes toward node `k` (the clamped
interpolated queue of each direction facing `k`; nothing without data). -/
def linkQueueContrib (src : CsvDataSource) (idx nextIdx : ℕ) (frac : ℚ)
    (k : String) (l : LinkDef) : List ℚ :=
  match mapGet src.linkSeries l.id with
  | none => []
  | some d =>
    (if l.a = k then [(mkLinkSnapshot d idx nextIdx frac).queueA] else []) ++
      (if l.b = k then [(mkLinkSnapshot d idx nextIdx frac).queueB] else [])

/-- All queue values of links incident to node `k`, in the direction facing
`k`, as accumulated by the link loop. -/
def incidentQueueValues (src : CsvDataSource) (idx nextIdx : ℕ) (frac : ℚ)
    (k : String) : List ℚ :=
  src.layout.links.flatMap (linkQueueContrib src idx nextIdx frac k)

/-- Arithmetic mean of a list of rationals (0 for the empty list). -/
def mean (l : List ℚ) : ℚ := if l = [] then 0 else l.sum / (l.length : ℚ)

/-- The links record accumulated by the link loop, in closed form. -/
theorem foldl_linkStep_links (src : CsvDataSource) (idx nextIdx : ℕ)
    (frac : ℚ) (L : List LinkDef) (acc : LinkPass) :
    (L.foldl (linkStep src idx nextIdx frac) acc).links =
      acc.links ++ L.filterMap (linkEntry src idx nextIdx frac) := by
  induction L generalizing acc with
  | nil => simp
  | cons l L ih =>
    simp only [List.foldl_cons, List.filterMap_cons, linkEntry]
    cases hd : mapGet src.linkSeries l.id with
    | none =>
      rw [ih]
      simp only [linkStep, hd]
      simp
    | some d =>
      rw [ih]
      simp only [linkStep, hd]
      simp

/-- The queue sum accumulated by the link loop, in closed form. -/
theorem foldl_linkStep_qsum (src : CsvDataSource) (idx nextIdx : ℕ)
    (frac : ℚ) (k : String) (L : List LinkDef) (acc : LinkPass) :
    (L.foldl (linkStep src idx nextIdx frac) acc).qsum k =
      acc.qsum k +
        (L.flatMap (linkQueueContrib src idx nextIdx frac k)).sum := by
  induction L generalizing acc with
  | nil => simp
  | cons l L ih =>
    simp only [List.foldl_cons, List.flatMap_cons, List.sum_append,
      linkQueueContrib]
    cases hd : mapGet src.linkSeries l.id with
    | none =>
      rw [ih]
      simp only [linkStep, hd]
      simp
    | some d =>
      rw [ih]
      simp only [linkStep, hd]
      by_cases ha : l.a = k <;> by_cases hb : l.b = k <;>
        simp [ha, hb] <;> ring

/-- The queue count accumulated by the link loop, in closed form. -/
theorem foldl_linkStep_qcount (src : CsvDataSource) (idx nextIdx : ℕ)
    (frac : ℚ) (k : String) (L : List LinkDef) (acc : LinkPass) :
    (L.foldl (linkStep src idx nextIdx frac) acc).qcount k =
      acc.qcount k +
        (L.flatMap (linkQueueContrib src idx nextIdx frac k)).length := by
  induction L generalizing acc with
  | nil => simp
  | cons l L ih =>
    simp only [List.foldl_cons, List.flatMap_cons, List.length_append,
      linkQueueContrib]
    cases hd : mapGet src.linkSeries l.id with
    | none =>
      rw [ih]
      simp only [linkStep, hd]
      simp
    | some d =>
      rw [ih]
      simp only [linkStep, hd]
      by_cases ha : l.a = k <;> by_cases hb : l.b = k <;>
        simp [ha, hb] <;> ring

/-- The aggregated queue sum of the link pass at node `k`. -/
theorem linkPass_qsum (src : CsvDataSource) (idx nextIdx : ℕ) (frac : ℚ)
    (k : String) :
    (linkPass src idx nextIdx frac).qsum k =
      (incidentQueueValues src idx nextIdx frac k).sum := by
  rw [linkPass, foldl_linkStep_qsum]
  simp [incidentQueueValues]

/-- The aggregated queue count of the link pass at node `k`. -/
theorem linkPass_qcount (src : CsvDataSource) (idx nextIdx : ℕ) (frac : ℚ)
    (k : String) :
    (linkPass src idx nextIdx frac).qcount k =
      (incidentQueueValues src idx nextIdx frac k).length := by
  rw [linkPass, foldl_linkStep_qcount]
  simp [incidentQueueValues]

/-- Every accumulated incident queue value is non-negative (each one is
clamped by `Math.max(0, ...)` in the link loop). -/
theorem incidentQueueValues_nonneg (src : CsvDataSource) (idx nextIdx : ℕ)
    (frac : ℚ) (k : String) :
    ∀ x ∈ incidentQueueValues src idx nextIdx frac k, 0 ≤ x := by
  intro x hx
  obtain ⟨l, _, hxl⟩ := List.mem_flatMap.mp hx
  unfold linkQueueContrib at hxl
  cases hd : mapGet src.linkSeries l.id with
  | none =>
    rw [hd] at hxl
    exact absurd hxl (List.not_mem_nil x)
  | some d =>
    rw [hd] at hxl
    have hval : x = (mkLinkSnapshot d idx nextIdx frac).queueA ∨
        x = (mkLinkSnapshot d idx nextIdx frac).queueB := by
      rcases List.mem_append.mp hxl with h | h
      · by_cases ha : l.a = k
        · rw [if_pos ha] at h
          exact Or.inl (List.mem_singleton.mp h)
        · rw [if_neg ha] at h
          exact absurd h (List.not_mem_nil x)
      · by_cases hb : l.b = k
        · rw [if_pos hb] at h
          exact Or.inr (List.mem_singleton.mp h)
        · rw [if_neg hb] at h
          exact absurd h (List.not_mem_nil x)
    rcases hval with rfl | rfl <;>
      · simp only [mkLinkSnapshot, jsMax_eq]
        exact le_max_left 0 _

/-! ### Record lookup lemmas -/

/-- A lookup that misses every key returns nothing. -/
theorem recordGet_eq_none {α : Type} (m : List (String × α)) (k : String)
    (h : ∀ e ∈ m, e.1 ≠ k) : recordGet m k = none := by
  induction m with
  | nil => rfl
  | cons e rest ih =>
    have htail := ih (fun x hx => h x (List.mem_cons_of_mem e hx))
    simp only [recordGet, htail]
    rw [if_neg (h e (List.mem_cons_self e rest))]

/-- A successful record lookup returns one of the record's entries. -/
theorem recordGet_mem {α : Type} (m : List (String × α)) (k : String)
    (v : α) (h : recordGet m k = some v) : (k, v) ∈ m := by
  induction m with
  | nil => simp [recordGet] at h
  | cons e rest ih =>
    obtain ⟨ek, ev⟩ := e
    cases hr : recordGet rest k with
    | some w =>
      simp only [recordGet, hr, Option.some.injEq] at h
      exact List.mem_cons_of_mem _ (ih (h ▸ hr))
    | none =>
      simp only [recordGet, hr] at h
      by_cases he : ek = k
      · rw [if_pos (by exact he)] at h
        injection h with h
        subst he
        subst h
        exact List.mem_cons_self _ rest
      · rw [if_neg (by exact he)] at h
        exact absurd h (by simp)

/-- A record containing the key yields some entry on lookup. -/
theorem recordGet_isSome {α : Type} (m : List (String × α)) (k : String)
    (h : ∃ e ∈ m, e.1 = k) : (recordGet m k).isSome := by
  induction m with
  | nil => simp at h
  | cons e rest ih =>
    cases hr : recordGet rest k with
    | some w => simp [recordGet, hr]
    | none =>
      obtain ⟨x, hx, hk⟩ := h
      rcases List.mem_cons.mp hx with rfl | hxr
      · simp [recordGet, hr, if_pos hk]
      · have := ih ⟨x, hxr, hk⟩
        rw [hr] at this
        simp at this

/-- When every entry under the key carries the same value, lookup returns
that value (provided the key occurs at all). -/
theorem recordGet_of_all {α : Type} (m : List (String × α)) (k : String)
    (v : α) (hex : ∃ e ∈ m, e.1 = k)
    (hall : ∀ e ∈ m, e.1 = k → e.2 = v) : recordGet m k = some v := by
  cases hr : recordGet m k with
  | none =>
    have := recordGet_isSome m k hex
    rw [hr] at this
    simp at this
  | some w =>
    have hmem := recordGet_mem m k w hr
    exact congrArg some (hall (k, w) hmem rfl)

/-- The links record of `sample` holds, under each link id with series
data, exactly the interpolated-and-clamped snapshot of that data. -/
theorem recordGet_linkPass (src : CsvDataSource) (idx nextIdx : ℕ)
    (frac : ℚ) (l : LinkDef) (d : LinkSeries) (hl : l ∈ src.layout.links)
    (hd : mapGet src.linkSeries l.id = some d) :
    recordGet (linkPass src idx nextIdx frac).links l.id =
      some (mkLinkSnapshot d idx nextIdx frac) := by
  rw [linkPass, foldl_linkStep_links]
  show recordGet ([] ++ _) l.id = _
  rw [List.nil_append]
  apply recordGet_of_all
  · refine ⟨(l.id, mkLinkSnapshot d idx nextIdx frac), ?_, rfl⟩
    exact List.mem_filterMap.mpr ⟨l, hl, by simp [linkEntry, hd]⟩
  · intro e he hek
    obtain ⟨l', hl', he'⟩ := List.mem_filterMap.mp he
    unfold linkEntry at he'
    cases hd' : mapGet src.linkSeries l'.id with
    | none =>
      rw [hd'] at he'
      exact Option.noConfusion he'
    | some d' =>
      rw [hd'] at he'
      simp only [Option.map_some', Option.some.injEq] at he'
      have hid : l'.id = l.id := by rw [← he'] at hek; exact hek
      rw [hid, hd, Option.some.injEq] at hd'
      rw [← he', hd']

/-- The nodes record built by `sample` maps each node (under unique node
ids) to its aggregated node snapshot. -/
theorem recordGet_map_nodes (nodes : List NodeDef)
    (f : NodeDef → NodeSnapshot) (nd : NodeDef) (hmem : nd ∈ nodes)
    (hnodup : (nodes.map NodeDef.id).Nodup) :
    recordGet (nodes.map (fun n => (n.id, f n))) nd.id = some (f nd) := by
  induction nodes with
  | nil => exact absurd hmem (List.not_mem_nil nd)
  | cons n rest ih =>
    have hnd' : (n.id ∉ rest.map NodeDef.id) ∧ (rest.map NodeDef.id).Nodup := by
      rw [List.map_cons, List.nodup_cons] at hnodup
      exact hnodup
    by_cases hr : nd ∈ rest
    · have htail := ih hr hnd'.2
      simp only [List.map_cons, recordGet, htail]
    · have hnd : nd = n := by
        rcases List.mem_cons.mp hmem with h | h
        · exact h
        · exact absurd h hr
      subst hnd
      have hnotin : ∀ e ∈ rest.map (fun n => (n.id, f n)), e.1 ≠ nd.id := by
        intro e he
        obtain ⟨n', hn', hee⟩ := List.mem_map.mp he
        intro hEq
        apply hnd'.1
        rw [← hEq, ← hee]
        exact List.mem_map_of_mem NodeDef.id hn'
      simp only [List.map_cons, recordGet,
        recordGet_eq_none _ _ hnotin]
      simp

/-- Clamped average of a list of non-negative values is its mean. -/
theorem jsMax_avg_mean (values : List ℚ) (hnn : ∀ x ∈ values, 0 ≤ x) :
    jsMax 0 (if 0 < values.length then values.sum / (values.length : ℚ)
      else 0) = mean values := by
  by_cases h : values = []
  · subst h
    simp [mean, jsMax]
  · have hlen : 0 < values.length := List.length_pos.mpr h
    rw [if_pos hlen, mean, if_neg h, jsMax_eq]
    exact max_eq_right
      (div_nonneg (List.sum_nonneg hnn) (Nat.cast_nonneg values.length))

/-- A switch node's snapshot is the arithmetic mean of its accumulated
incident queue values, with no bucket and no scalar-override flag. -/
theorem nodeSnapshotFor_switch (src : CsvDataSource) (idx nextIdx : ℕ)
    (frac : ℚ) (node : NodeDef) (hsw : node.type = NodeType.switch) :
    nodeSnapshotFor src idx nextIdx frac
      (linkPass src idx nextIdx frac).qsum
      (linkPass src idx nextIdx frac).qcount node =
      ⟨mean (incidentQueueValues src idx nextIdx frac node.id),
        none, false⟩ := by
  have hne : ¬ node.type = NodeType.host := by
    rw [hsw]
    exact fun h => NodeType.noConfusion h
  simp only [nodeSnapshotFor, if_neg hne]
  rw [linkPass_qsum, linkPass_qcount]
  congr 1
  exact jsMax_avg_mean _ (incidentQueueValues_nonneg src idx nextIdx frac
    node.id)

/-- A host node's snapshot queue is the clamped interpolation of its
scalar queue series when present, else the mean of its accumulated
incident queue values. -/
theorem nodeSnapshotFor_host_queue (src : CsvDataSource) (idx nextIdx : ℕ)
    (frac : ℚ) (node : NodeDef) (hho : node.type = NodeType.host) :
    (nodeSnapshotFor src idx nextIdx frac
      (linkPass src idx nextIdx frac).qsum
      (linkPass src idx nextIdx frac).qcount node).queue =
      (match mapGet src.hostQueueSeries node.metricsId with
       | some s => jsMax 0 (interpolate s idx nextIdx frac)
       | none => mean (incidentQueueValues src idx nextIdx frac node.id)) := by
  simp only [nodeSnapshotFor, if_pos hho]
  cases hq : mapGet src.hostQueueSeries node.metricsId with
  | some s =>
    simp only [hq, Option.map_some', Option.getD_some]
    rw [jsMax_eq, jsMax_eq, ← max_assoc, max_self]
  | none =>
    simp only [hq, Option.map_none', Option.getD_none]
    rw [linkPass_qsum, linkPass_qcount]
    exact jsMax_avg_mean _ (incidentQueueValues_nonneg src idx nextIdx frac
      node.id)

/-- C3: for every sampled time (from any cursor state), a switch node's
Snapshot queue value is the arithmetic mean of the clamped interpolated
queue values of its incident links in the direction facing that node (0
when no incident link carries data), and a host node's queue value is the
clamped interpolation of its scalar queue series when one is present for
that host, else the same mean.  Stated for stores with unique node ids
(the JS nodes record is keyed by id) and a non-empty grid. -/
theorem node_queue_aggregation (src : CsvDataSource) (st : CsvState)
    (t : ℚ) (hne : src.timestamps ≠ [])
    (hnodup : (src.layout.nodes.map NodeDef.id).Nodup)
    (node : NodeDef) (hmem : node ∈ src.layout.nodes) :
    (node.type = NodeType.switch →
      recordGet (sample src st t).1.nodes node.id =
        some ⟨mean (incidentQueueValues src (sampleCursor src st t)
          (sampleNext src st t) (sampleFrac src st t) node.id),
          none, false⟩) ∧
    (node.type = NodeType.host →
      (recordGet (sample src st t).1.nodes node.id).map NodeSnapshot.queue =
        some (match mapGet src.hostQueueSeries node.metricsId with
          | some s => jsMax 0 (interpolate s (sampleCursor src st t)
              (sampleNext src st t) (sampleFrac src st t))
          | none => mean (incidentQueueValues src (sampleCursor src st t)
              (sampleNext src st t) (sampleFrac src st t) node.id))) := by
  have hlen : ¬ src.timestamps.length = 0 :=
    fun h => hne (List.length_eq_zero.mp h)
  have hnodes : (sample src st t).1.nodes =
      src.layout.nodes.map (fun n => (n.id,
        nodeSnapshotFor src (sampleCursor src st t) (sampleNext src st t)
          (sampleFrac src st t)
          (linkPass src (sampleCursor src st t) (sampleNext src st t)
            (sampleFrac src st t)).qsum
          (linkPass src (sampleCursor src st t) (sampleNext src st t)
            (sampleFrac src st t)).qcount n)) := by
    simp only [sample, if_neg hlen]
  rw [hnodes, recordGet_map_nodes _ _ node hmem hnodup]
  constructor
  · intro hsw
    rw [nodeSnapshotFor_switch _ _ _ _ _ hsw]
  · intro hho
    rw [Option.map_some']
    exact congrArg some (nodeSnapshotFor_host_queue _ _ _ _ _ hho)

/-- C3 witness: on the concrete store, the switch node `a` averages its
single incident link queue and the host node `b` (no scalar series) falls
back to the same mean, at query time 1 from the fresh state. -/
theorem node_queue_aggregation_witness :
    csvEx.timestamps ≠ [] ∧
    (csvEx.layout.nodes.map NodeDef.id).Nodup ∧
    ndA ∈ csvEx.layout.nodes ∧
    ((ndA.type = NodeType.switch →
      recordGet (sample csvEx initState 1).1.nodes ndA.id =
        some ⟨mean (incidentQueueValues csvEx (sampleCursor csvEx initState 1)
          (sampleNext csvEx initState 1) (sampleFrac csvEx initState 1)
          ndA.id), none, false⟩) ∧
    (ndA.type = NodeType.host →
      (recordGet (sample csvEx initState 1).1.nodes ndA.id).map
          NodeSnapshot.queue =
        some (match mapGet csvEx.hostQueueSeries ndA.metricsId with
          | some s => jsMax 0 (interpolate s (sampleCursor csvEx initState 1)
              (sampleNext csvEx initState 1) (sampleFrac csvEx initState 1))
          | none => mean (incidentQueueValues csvEx
              (sampleCursor csvEx initState 1) (sampleNext csvEx initState 1)
              (sampleFrac csvEx initState 1) ndA.id)))) :=
  ⟨by decide, by decide, by decide,
    node_queue_aggregation csvEx initState 1 (by decide) (by decide) ndA
      (by decide)⟩

/-! ### C2: exact grid points -/

/-- On a strictly increasing grid starting at or above 0, grid timestamps
are fixed by the clamp. -/
theorem clampTime_at_grid (src : CsvDataSource) (i : ℕ)
    (hsort : src.timestamps.Sorted (· < ·))
    (h0 : 0 ≤ src.timestamps.getD 0 0) (hi : i < src.timestamps.length) :
    clampTime src (src.timestamps.getD i 0) = src.timestamps.getD i 0 := by
  have hne : src.timestamps ≠ [] := by
    intro h
    rw [h] at hi
    simp at hi
  have hsle : src.timestamps.Sorted (· ≤ ·) :=
    List.Pairwise.imp (fun h => le_of_lt h) hsort
  have hnn : 0 ≤ src.timestamps.getD i 0 :=
    le_trans h0 (sorted_getD_le src.timestamps hsle 0 i (Nat.zero_le i) hi)
  obtain ⟨hdur, _⟩ := computeDuration_sorted src.timestamps hne hsle h0
  have hdur' : src.duration = src.timestamps.getLastD 0 := hdur
  have hle : src.timestamps.getD i 0 ≤ src.duration := by
    rw [hdur', getLastD_eq_getD src.timestamps hne]
    exact sorted_getD_le src.timestamps hsle i (src.timestamps.length - 1)
      (by omega) (by omega)
  rw [clampTime, jsMax_eq, jsMin_eq, min_eq_left hle, max_eq_right hnn]

/-- On a strictly increasing grid starting at or above 0, sampling at the
`i`-th grid timestamp locates the cursor at `i - 1` (0 for `i = 0`). -/
theorem sampleCursor_at_grid (src : CsvDataSource) (i : ℕ)
    (hsort : src.timestamps.Sorted (· < ·))
    (h0 : 0 ≤ src.timestamps.getD 0 0) (hi : i < src.timestamps.length) :
    sampleCursor src initState (src.timestamps.getD i 0) = i - 1 := by
  rw [sampleCursor_init, clampTime_at_grid src i hsort h0 hi]
  apply advanceCursor_eq_of src.timestamps (src.timestamps.getD i 0) 0 (i - 1)
    (Nat.zero_le _)
  · intro j hj0 hj
    refine ⟨by omega, ?_⟩
    exact sorted_getD_lt src.timestamps hsort (j + 1) i (by omega) hi
  · rcases Nat.eq_zero_or_pos i with rfl | hipos
    · rintro ⟨h1, h2⟩
      have : src.timestamps.getD 0 0 < src.timestamps.getD (0 + 1) 0 :=
        sorted_getD_lt src.timestamps hsort 0 1 (by omega) (by omega)
      exact absurd h2 (not_lt.mpr (le_of_lt this))
    · rintro ⟨h1, h2⟩
      have him : i - 1 + 1 = i := by omega
      rw [him] at h2
      exact absurd h2 (lt_irrefl _)

/-- On a strictly increasing grid starting at or above 0, interpolation at
the `i`-th grid timestamp reproduces index `i` of any series aligned to
the grid, exactly. -/
theorem interpolate_at_grid (src : CsvDataSource) (i : ℕ)
    (hsort : src.timestamps.Sorted (· < ·))
    (h0 : 0 ≤ src.timestamps.getD 0 0) (hi : i < src.timestamps.length)
    (s : List ℚ) (hs : s.length = src.timestamps.length) :
    interpolate s
      (sampleCursor src initState (src.timestamps.getD i 0))
      (sampleNext src initState (src.timestamps.getD i 0))
      (sampleFrac src initState (src.timestamps.getD i 0)) =
      s.getD i 0 := by
  have hclamp := clampTime_at_grid src i hsort h0 hi
  have hcur := sampleCursor_at_grid src i hsort h0 hi
  rcases Nat.eq_zero_or_pos i with rfl | hipos
  · have hfrac : sampleFrac src initState (src.timestamps.getD 0 0) = 0 := by
      have ht0 : sampleT0 src initState (src.timestamps.getD 0 0) =
          src.timestamps.getD 0 0 := by
        rw [sampleT0, hcur]
      rw [sampleFrac]
      by_cases hsp :
          0 < sampleSpan src initState (src.timestamps.getD 0 0)
      · rw [if_pos hsp, hclamp, ht0, sub_self, zero_div, jsMax_eq,
          jsMin_eq, max_self, min_eq_right (by norm_num : (0:ℚ) ≤ 1)]
      · rw [if_neg hsp]
    have hcur0 : sampleCursor src initState (src.timestamps.getD 0 0) = 0 := by
      rw [hcur]
    rw [hfrac]
    simp only [interpolate, mul_zero, add_zero]
    rw [hcur0]
  · have hnext : sampleNext src initState (src.timestamps.getD i 0) = i := by
      rw [sampleNext, hcur]
      omega
    have ht0 : sampleT0 src initState (src.timestamps.getD i 0) =
        src.timestamps.getD (i - 1) 0 := by
      rw [sampleT0, hcur]
    have ht1 : sampleT1 src initState (src.timestamps.getD i 0) =
        src.timestamps.getD i 0 := by
      rw [sampleT1, hnext]
    have hlt : src.timestamps.getD (i - 1) 0 < src.timestamps.getD i 0 :=
      sorted_getD_lt src.timestamps hsort (i - 1) i (by omega) hi
    have hfrac : sampleFrac src initState (src.timestamps.getD i 0) = 1 := by
      have hspan : sampleSpan src initState (src.timestamps.getD i 0) =
          src.timestamps.getD i 0 - src.timestamps.getD (i - 1) 0 := by
        rw [sampleSpan, ht0, ht1, if_pos hlt]
      rw [sampleFrac, hspan, if_pos (sub_pos.mpr hlt), hclamp, ht0,
        div_self (ne_of_gt (sub_pos.mpr hlt)), jsMax_eq, jsMin_eq,
        max_eq_right (by norm_num : (0:ℚ) ≤ 1), min_self]
    rw [hfrac, hnext, interpolate]
    have his : i < s.length := by omega
    simp only [if_pos his]
    ring

/-- The bucket field of a node snapshot: hosts expose their clamped
interpolated budget series when present; switches never carry one. -/
theorem nodeSnapshotFor_bucket (src : CsvDataSource) (idx nextIdx : ℕ)
    (frac : ℚ) (qsum : String → ℚ) (qcount : String → ℕ) (node : NodeDef) :
    (nodeSnapshotFor src idx nextIdx frac qsum qcount node).bucket =
      (if node.type = NodeType.host then
        (mapGet src.hostBudgetSeries node.metricsId).map
          (fun s => jsMax 0 (interpolate s idx nextIdx frac))
      else none) := rfl

/-- C2 (amended): on a strictly increasing timestamp grid starting at or
above 0 (the loader zero-bases grids), `sample(timestamps[i])` from the
fresh state reproduces the stored value at index `i` exactly for every
metric whose stored value at `i` is non-negative, for series aligned to
the grid length: link throughput and queue in both directions, and host
scalar queue/budget series.  (Negative stored samples are clamped to 0 by
the code, and grids with a negative first timestamp shift the query; see
the counterexample.) -/
theorem sample_at_grid_point (src : CsvDataSource) (i : ℕ)
    (hsort : src.timestamps.Sorted (· < ·))
    (h0 : 0 ≤ src.timestamps.getD 0 0) (hi : i < src.timestamps.length) :
    (∀ l ∈ src.layout.links, ∀ d, mapGet src.linkSeries l.id = some d →
      d.forward.throughput.length = src.timestamps.length →
      d.reverse.throughput.length = src.timestamps.length →
      d.forward.queue.length = src.timestamps.length →
      d.reverse.queue.length = src.timestamps.length →
      0 ≤ d.forward.throughput.getD i 0 →
      0 ≤ d.reverse.throughput.getD i 0 →
      0 ≤ d.forward.queue.getD i 0 →
      0 ≤ d.reverse.queue.getD i 0 →
      recordGet (sample src initState
          (src.timestamps.getD i 0)).1.links l.id =
        some ⟨d.forward.throughput.getD i 0, d.reverse.throughput.getD i 0,
          d.forward.queue.getD i 0, d.reverse.queue.getD i 0⟩) ∧
    (∀ node ∈ src.layout.nodes, (src.layout.nodes.map NodeDef.id).Nodup →
      node.type = NodeType.host →
      (∀ s, mapGet src.hostQueueSeries node.metricsId = some s →
        s.length = src.timestamps.length → 0 ≤ s.getD i 0 →
        (recordGet (sample src initState
            (src.timestamps.getD i 0)).1.nodes node.id).map
          NodeSnapshot.queue = some (s.getD i 0)) ∧
      (∀ s, mapGet src.hostBudgetSeries node.metricsId = some s →
        s.length = src.timestamps.length → 0 ≤ s.getD i 0 →
        (recordGet (sample src initState
            (src.timestamps.getD i 0)).1.nodes node.id).map
          NodeSnapshot.bucket = some (some (s.getD i 0)))) := by
  have hlen : ¬ src.timestamps.length = 0 := by omega
  have hinterp := interpolate_at_grid src i hsort h0 hi
  constructor
  · intro l hl d hd hlen1 hlen2 hlen3 hlen4 hn1 hn2 hn3 hn4
    have hlinks : (sample src initState (src.timestamps.getD i 0)).1.links =
        (linkPass src
          (sampleCursor src initState (src.timestamps.getD i 0))
          (sampleNext src initState (src.timestamps.getD i 0))
          (sampleFrac src initState (src.timestamps.getD i 0))).links := by
      simp only [sample, if_neg hlen]
    rw [hlinks, recordGet_linkPass src _ _ _ l d hl hd]
    simp only [mkLinkSnapshot]
    rw [hinterp _ hlen1, hinterp _ hlen2, hinterp _ hlen3, hinterp _ hlen4,
      jsMax_eq, jsMax_eq, jsMax_eq, jsMax_eq, max_eq_right hn1,
      max_eq_right hn2, max_eq_right hn3, max_eq_right hn4]
  · intro node hmem hnodup hho
    have hnodes : (sample src initState (src.timestamps.getD i 0)).1.nodes =
        src.layout.nodes.map (fun n => (n.id,
          nodeSnapshotFor src
            (sampleCursor src initState (src.timestamps.getD i 0))
            (sampleNext src initState (src.timestamps.getD i 0))
            (sampleFrac src initState (src.timestamps.getD i 0))
            (linkPass src
              (sampleCursor src initState (src.timestamps.getD i 0))
              (sampleNext src initState (src.timestamps.getD i 0))
              (sampleFrac src initState (src.timestamps.getD i 0))).qsum
            (linkPass src
              (sampleCursor src initState (src.timestamps.getD i 0))
              (sampleNext src initState (src.timestamps.getD i 0))
              (sampleFrac src initState (src.timestamps.getD i 0))).qcount
            n)) := by
      simp only [sample, if_neg hlen]
    constructor
    · intro s hs hslen hsn
      rw [hnodes, recordGet_map_nodes _ _ node hmem hnodup,
        Option.map_some']
      refine congrArg some ?_
      rw [nodeSnapshotFor_host_queue _ _ _ _ _ hho]
      simp only [hs]
      rw [hinterp s hslen, jsMax_eq, max_eq_right hsn]
    · intro s hs hslen hsn
      rw [hnodes, recordGet_map_nodes _ _ node hmem hnodup,
        Option.map_some']
      refine congrArg some ?_
      rw [nodeSnapshotFor_bucket, if_pos hho, hs, Option.map_some']
      rw [hinterp s hslen, jsMax_eq, max_eq_right hsn]

/-- Link series with a negative stored throughput sample at index 0. -/
def lsC2 : LinkSeries := ⟨lkEx, ⟨[-1, -1], [0, 0]⟩, ⟨[0, 0], [0, 0]⟩⟩

/-- Store over the strictly increasing grid `[0, 1]` with a negative
stored sample. -/
def csvC2 : CsvDataSource := ⟨⟨[], [lkEx]⟩, [0, 1], [("l", lsC2)], [], []⟩

/-- Link series with non-negative samples for the negative-start grid. -/
def lsC2b : LinkSeries := ⟨lkEx, ⟨[5, 7], [0, 0]⟩, ⟨[0, 0], [0, 0]⟩⟩

/-- Store over the strictly increasing grid `[-1, 1]`, which starts below
0. -/
def csvC2b : CsvDataSource := ⟨⟨[], [lkEx]⟩, [-1, 1], [("l", lsC2b)], [], []⟩

/-- C2 counterexample: two strictly increasing grids on which
`sample(timestamps[0])` does not reproduce the stored value at index 0.
With a stored throughput of -1 the snapshot clamps it to 0; with a grid
starting at -1 the query time is clamped to 0 and interpolates to 6
instead of the stored 5. -/
theorem grid_point_counterexample :
    (csvC2.timestamps.Sorted (· < ·) ∧
      mapGet csvC2.linkSeries "l" = some lsC2 ∧
      lsC2.forward.throughput.getD 0 0 = -1 ∧
      (recordGet (sample csvC2 initState
          (csvC2.timestamps.getD 0 0)).1.links "l").map LinkSnapshot.aToB =
        some 0) ∧
    (csvC2b.timestamps.Sorted (· < ·) ∧
      mapGet csvC2b.linkSeries "l" = some lsC2b ∧
      lsC2b.forward.throughput.getD 0 0 = 5 ∧
      (recordGet (sample csvC2b initState
          (csvC2b.timestamps.getD 0 0)).1.links "l").map LinkSnapshot.aToB =
        some 6) := by
  constructor
  · refine ⟨by decide, by decide, by decide, ?_⟩
    norm_num [sample, sampleCursor, sampleState, sampleNext, sampleT0,
      sampleT1, sampleSpan, sampleFrac, locateIndex, clampTime,
      CsvDataSource.duration, computeDuration, advanceCursor,
      advanceCursorFuel, interpolate, linkPass, linkStep, mkLinkSnapshot,
      mapGet, recordGet, jsMax, jsMin, initState, csvC2, lsC2, lkEx, mEx]
  · refine ⟨by decide, by decide, by decide, ?_⟩
    norm_num [sample, sampleCursor, sampleState, sampleNext, sampleT0,
      sampleT1, sampleSpan, sampleFrac, locateIndex, clampTime,
      CsvDataSource.duration, computeDuration, advanceCursor,
      advanceCursorFuel, interpolate, linkPass, linkStep, mkLinkSnapshot,
      mapGet, recordGet, jsMax, jsMin, initState, csvC2b, lsC2b, lkEx, mEx]

/-- C2 witness: on the concrete store, sampling the grid point at index 2
reproduces all four stored link metrics of the link `l`. -/
theorem sample_at_grid_point_witness :
    csvEx.timestamps.Sorted (· < ·) ∧ 0 ≤ csvEx.timestamps.getD 0 0 ∧
    2 < csvEx.timestamps.length ∧
    recordGet (sample csvEx initState
        (csvEx.timestamps.getD 2 0)).1.links lkEx.id =
      some ⟨lsEx.forward.throughput.getD 2 0, lsEx.reverse.throughput.getD 2 0,
        lsEx.forward.queue.getD 2 0, lsEx.reverse.queue.getD 2 0⟩ :=
  ⟨by decide, by decide, by decide,
    (sample_at_grid_point csvEx 2 (by decide) (by decide) (by decide)).1
      lkEx (by decide) lsEx (by decide) (by decide) (by decide) (by decide)
      (by decide) (by decide) (by decide) (by decide) (by decide)⟩

/-! ### Load orchestrator (`loadScenarioData` and helpers)

Fetching is I/O: a fetch outcome is an input to the model.  Header and
body text is modelled as character lists.  `Number(...)` conversion of CSV
cells is JS float parsing; it enters the model as an uninterpreted
conversion `num : List Char → ℚ`, and every theorem below holds for all
such conversions. -/

/-- Decidable equality for load results. -/
instance {ε α : Type} [DecidableEq ε] [DecidableEq α] :
    DecidableEq (Except ε α) := fun x y =>
  match x, y with
  | Except.ok a, Except.ok b =>
    if h : a = b then isTrue (by rw [h])
    else isFalse (fun hc => h (by injection hc))
  | Except.error e, Except.error f =>
    if h : e = f then isTrue (by rw [h])
    else isFalse (fun hc => h (by injection hc))
  | Except.ok _, Except.error _ => isFalse (fun hc => Except.noConfusion hc)
  | Except.error _, Except.ok _ => isFalse (fun hc => Except.noConfusion hc)

/-- Outcome of one `fetch(url)`: a non-ok response, or a body with an
optional `content-type` header. -/
inductive FetchResult where
  | failure
  | success (contentType : Option (List Char)) (body : List Char)
deriving DecidableEq, Repr

/-- The whitespace class of the `\s` in `HTML_SNIFF_RE` and of `trim()`
(ASCII part). -/
def jsWhitespace (c : Char) : Bool :=
  c = ' ' || c = '\t' || c = '\n' || c = '\r' || c = '\x0b' || c = '\x0c'

/-- Character-list prefix test (first argument is the sought text). -/
def charsStartWith : List Char → List Char → Bool
  | [], _ => true
  | _ :: _, [] => false
  | a :: as, b :: bs => a = b && charsStartWith as bs

/-- Character-list containment test (first argument is the sought text). -/
def charsContain (needle : List Char) : List Char → Bool
  | [] => charsStartWith needle []
  | b :: bs => charsStartWith needle (b :: bs) || charsContain needle bs

/-- Lowercasing for the case-insensitive checks. -/
def toLowerChars (l : List Char) : List Char := l.map Char.toLower

/-- Split a character list at every occurrence of a separator. -/
def splitOnChar (sep : Char) : List Char → List (List Char)
  | [] => [[]]
  | c :: rest =>
    match splitOnChar sep rest with
    | [] => [[c]]
    | grp :: grps =>
      if c = sep then [] :: grp :: grps else (c :: grp) :: grps

/-- Drop one trailing carriage return (the `\r?` before a matched `\n`). -/
def dropTrailingCR (seg : List Char) : List Char :=
  if seg.getLast? = some '\r' then seg.dropLast else seg

/-- Strip the optional `\r` from every segment that was followed by a
`\n` (all but the last). -/
def stripCRSegments : List (List Char) → List (List Char)
  | [] => []
  | [last] => [last]
  | seg :: rest => dropTrailingCR seg :: stripCRSegments rest

/-- A line is blank when `trim()` empties it. -/
def isBlankLine (l : List Char) : Bool := l.all jsWhitespace

/-- `text.split(/\r?\n/)` followed by dropping blank lines, as in
`parseCsv`/`parseScalarCsv`. -/
def splitLines (text : List Char) : List (List Char) :=
  (stripCRSegments (splitOnChar '\n' text)).filter
    (fun l => !isBlankLine l)

/-- `HTML_SNIFF_RE = /^\s*<(?:!DOCTYPE\s+html|html)/i` applied to a body
(case-insensitivity via lowercasing). -/
def htmlSniff (body : List Char) : Bool :=
  match (toLowerChars body).dropWhile jsWhitespace with
  | [] => false
  | c :: rest =>
    c = '<' &&
      (charsStartWith "html".toList rest ||
        (charsStartWith "!doctype".toList rest &&
          jsWhitespace ((rest.drop 8).headD 'x') &&
          charsStartWith "html".toList
            ((rest.drop 8).dropWhile jsWhitespace)))

/-- `isHtmlPayload(contentType, body)`: a `text/html` content type, else
the HTML sniff on the body. -/
def isHtmlPayload (contentType : Option (List Char)) (body : List Char) :
    Bool :=
  (match contentType with
   | some ct => charsContain "text/html".toList (toLowerChars ct)
   | none => false) || htmlSniff body

/-- One data row of a link CSV: rows with fewer than 3 cells leave their
zero-initialized slots (`continue`). -/
def parseCsvRow (num : List Char → ℚ) (line : List Char) : ℚ × ℚ × ℚ :=
  let parts := splitOnChar ',' line
  if parts.length < 3 then (0, 0, 0)
  else (num (parts.getD 0 []), num (parts.getD 1 []), num (parts.getD 2 []))

/-- `parseCsv(text, reuseTimestamps?)`: throws without at least one data
row; otherwise returns (timestamps when not reusing, throughput, queue),
one entry per non-blank line after the header. -/
def parseCsv (num : List Char → ℚ) (text : List Char) (reuse : Bool) :
    Except String (Option (List ℚ) × List ℚ × List ℚ) :=
  let lines := splitLines text
  if lines.length ≤ 1 then Except.error "CSV missing data rows"
  else
    let rows := (lines.drop 1).map (parseCsvRow num)
    Except.ok
      (if reuse then none else some (rows.map (fun r => r.1)),
        rows.map (fun r => r.2.1), rows.map (fun r => r.2.2))

/-- One data row of a scalar CSV: rows with fewer than 2 cells leave their
zero-initialized slots. -/
def parseScalarRow (num : List Char → ℚ) (line : List Char) : ℚ × ℚ :=
  let parts := splitOnChar ',' line
  if parts.length < 2 then (0, 0)
  else (num (parts.getD 0 []), num (parts.getD 1 []))

/-- `parseScalarCsv(text, reuseTimestamps?)`. -/
def parseScalarCsv (num : List Char → ℚ) (text : List Char) (reuse : Bool) :
    Except String (Option (List ℚ) × List ℚ) :=
  let lines := splitLines text
  if lines.length ≤ 1 then Except.error "Scalar CSV missing data rows"
  else
    let rows := (lines.drop 1).map (parseScalarRow num)
    Except.ok
      (if reuse then none else some (rows.map (fun r => r.1)),
        rows.map (fun r => r.2))

/-- `zeroBaseTimestamps`: subtract the first timestamp from every entry
(no-op when it is already 0; the non-finite guard is vacuous over ℚ). -/
def zeroBaseTimestamps (ts : List ℚ) : List ℚ :=
  match ts with
  | [] => []
  | t0 :: _ => if t0 = 0 then ts else ts.map (fun x => x - t0)

/-- `createZeroSeries(length)`. -/
def createZeroSeries (n : ℕ) : DirectionSeries :=
  ⟨List.replicate n 0, List.replicate n 0⟩

/-- Copy into the prefix of a zero-filled length-`n` buffer
(`new Float32Array(expected)` + `set`), for `l.length ≤ n`. -/
def padZeros (l : List ℚ) (n : ℕ) : List ℚ :=
  l ++ List.replicate (n - l.length) 0

/-- Result of a successful `loadDirectionSeries`: the conformed series,
the (possibly newly established) baseline grid, and whether a length
mismatch was reported through diagnostics. -/
structure DirLoadOk where
  series : DirectionSeries
  timestamps : Option (List ℚ)
  lengthMismatch : Bool
deriving DecidableEq, Repr

/-- `loadDirectionSeries(url)` as a function of the fetch outcome and the
current baseline grid: failures and HTML payloads substitute zeros under
an established grid and are fatal without one; parsed series are conformed
to the grid length by truncation or zero-padding, reporting mismatches. -/
def loadDirectionSeries (num : List Char → ℚ) (ts : Option (List ℚ))
    (f : FetchResult) : Except String DirLoadOk :=
  match f with
  | FetchResult.failure =>
    match ts with
    | none => Except.error "Missing baseline CSV"
    | some base => Except.ok ⟨createZeroSeries base.length, some base, false⟩
  | FetchResult.success ct body =>
    if isHtmlPayload ct body then
      match ts with
      | none => Except.error "CSV returned HTML instead of data"
      | some base =>
        Except.ok ⟨createZeroSeries base.length, some base, false⟩
    else
      match parseCsv num body ts.isSome with
      | Except.error e => Except.error e
      | Except.ok (newTs, thr, que) =>
        match ts with
        | none =>
          match newTs with
          | none => Except.error "CSV did not provide timestamps"
          | some raw =>
            Except.ok ⟨⟨thr, que⟩, some (zeroBaseTimestamps raw), false⟩
        | some base =>
          if thr.length = base.length then
            Except.ok ⟨⟨thr, que⟩, some base, false⟩
          else if thr.length > base.length then
            Except.ok ⟨⟨thr.take base.length, que.take base.length⟩,
              some base, true⟩
          else
            Except.ok ⟨⟨padZeros thr base.length, padZeros que base.length⟩,
              some base, true⟩

/-- One host scalar series load: skipped URLs, failures, HTML payloads and
parse errors (swallowed by the `try`/`catch`) all leave the target map
untouched; parsed values are conformed to the grid length. -/
def loadHostScalar (num : List Char → ℚ) (base : List ℚ)
    (f : Option FetchResult) : Option (List ℚ) :=
  match f with
  | none => none
  | some FetchResult.failure => none
  | some (FetchResult.success ct body) =>
    if isHtmlPayload ct body then none
    else
      match parseScalarCsv num body true with
      | Except.error _ => none
      | Except.ok (_, values) =>
        if values.length = base.length then some values
        else if values.length > base.length then
          some (values.take base.length)
        else some (padZeros values base.length)

/-- The per-link loop of `loadScenarioData`, threading the baseline grid
(the first successfully parsed CSV establishes it); the concurrent
forward/reverse pair is resolved in program order. -/
def loadLinks (num : List Char → ℚ) (fetchF fetchR : LinkDef → FetchResult) :
    List LinkDef → Option (List ℚ) →
      Except String (List (String × LinkSeries) × Option (List ℚ))
  | [], ts => Except.ok ([], ts)
  | l :: rest, ts => do
    let fwd ← loadDirectionSeries num ts (fetchF l)
    let rev ← loadDirectionSeries num fwd.timestamps (fetchR l)
    let (tail, ts2) ← loadLinks num fetchF fetchR rest rev.timestamps
    Except.ok ((l.id, ⟨l, fwd.series, rev.series⟩) :: tail, ts2)

/-- `loadScenarioData` over a layout and per-resource fetch outcomes: load
every link direction, fail when no baseline grid was ever established,
then load the optional host scalar series and assemble the store. -/
def loadScenarioData (num : List Char → ℚ) (layout : Layout)
    (fetchF fetchR : LinkDef → FetchResult)
    (budgetFetch queueFetch : NodeDef → Option FetchResult) :
    Except String CsvDataSource := do
  let (series, tsOpt) ← loadLinks num fetchF fetchR layout.links none
  match tsOpt with
  | none => Except.error "Unable to load any CSV time series"
  | some base =>
    let hostNodes := layout.nodes.filter
      (fun n => decide (n.type = NodeType.host))
    let budgets := hostNodes.filterMap (fun n =>
      (loadHostScalar num base (budgetFetch n)).map
        (fun v => (n.metricsId, v)))
    let queues := hostNodes.filterMap (fun n =>
      (loadHostScalar num base (queueFetch n)).map
        (fun v => (n.metricsId, v)))
    Except.ok ⟨layout, base, series, budgets, queues⟩

/-- Whether a fetch outcome parses as usable link CSV data with no
established grid (ok response, not HTML, at least one data row). -/
def fetchYieldsData (num : List Char → ℚ) (f : FetchResult) : Bool :=
  match f with
  | FetchResult.failure => false
  | FetchResult.success ct body =>
    !isHtmlPayload ct body &&
      (match parseCsv num body false with
       | Except.ok _ => true
       | Except.error _ => false)

/-! ### C6: substitution of unavailable series -/

/-- C6: when the grid is already established, a failed fetch or a payload
recognized as an HTML/error page makes `loadDirectionSeries` substitute an
all-zero series of exactly the grid length and continue (an `ok` result,
not a thrown failure). -/
theorem missing_series_substituted (num : List Char → ℚ) (base : List ℚ)
    (f : FetchResult)
    (h : f = FetchResult.failure ∨
      ∃ ct body, f = FetchResult.success ct body ∧
        isHtmlPayload ct body = true) :
    loadDirectionSeries num (some base) f =
      Except.ok ⟨createZeroSeries base.length, some base, false⟩ ∧
    (createZeroSeries base.length).throughput =
      List.replicate base.length 0 ∧
    (createZeroSeries base.length).queue = List.replicate base.length 0 ∧
    (createZeroSeries base.length).throughput.length = base.length ∧
    (createZeroSeries base.length).queue.length = base.length := by
  refine ⟨?_, rfl, rfl, by simp [createZeroSeries], by simp [createZeroSeries]⟩
  rcases h with rfl | ⟨ct, body, rfl, hhtml⟩
  · rfl
  · simp only [loadDirectionSeries, hhtml]
    rfl

/-- Constant cell conversion used by the loader witnesses. -/
def numConstOne (_ : List Char) : ℚ := 1

/-- C6 witness: a failed fetch under the established 2-point grid yields
the all-zero length-2 series without failing. -/
theorem missing_series_substituted_witness :
    (FetchResult.failure = FetchResult.failure ∨
      ∃ ct body, FetchResult.failure = FetchResult.success ct body ∧
        isHtmlPayload ct body = true) ∧
    (loadDirectionSeries numConstOne (some [0, 1]) FetchResult.failure =
      Except.ok ⟨createZeroSeries 2, some [0, 1], false⟩ ∧
    (createZeroSeries 2).throughput = List.replicate 2 0 ∧
    (createZeroSeries 2).queue = List.replicate 2 0 ∧
    (createZeroSeries 2).throughput.length = 2 ∧
    (createZeroSeries 2).queue.length = 2) :=
  ⟨Or.inl rfl,
    missing_series_substituted numConstOne [0, 1] FetchResult.failure
      (Or.inl rfl)⟩

/-! ### C7: fatal load without a grid -/

/-- Without an established grid, a fetch outcome with no usable data makes
`loadDirectionSeries` fail. -/
theorem loadDirectionSeries_none_error (num : List Char → ℚ)
    (f : FetchResult) (h : fetchYieldsData num f = false) :
    ∃ e, loadDirectionSeries num none f = Except.error e := by
  cases f with
  | failure => exact ⟨"Missing baseline CSV", rfl⟩
  | success ct body =>
    by_cases hh : isHtmlPayload ct body = true
    · refine ⟨"CSV returned HTML instead of data", ?_⟩
      simp only [loadDirectionSeries, if_pos hh]
    · cases hpc : parseCsv num body false with
      | error e =>
        refine ⟨e, ?_⟩
        simp only [loadDirectionSeries, if_neg hh, Option.isSome_none, hpc]
      | ok v =>
        exfalso
        simp [fetchYieldsData, hpc] at h
        exact hh h

/-- C7: when no required link series ever resolves to valid data, the
whole `loadScenarioData` fails with an error; no data source is
returned. -/
theorem load_fails_without_grid (num : List Char → ℚ) (layout : Layout)
    (fetchF fetchR : LinkDef → FetchResult)
    (budgetFetch queueFetch : NodeDef → Option FetchResult)
    (hlinks : ∀ l ∈ layout.links, fetchYieldsData num (fetchF l) = false ∧
      fetchYieldsData num (fetchR l) = false) :
    ∃ msg, loadScenarioData num layout fetchF fetchR budgetFetch
      queueFetch = Except.error msg := by
  cases hls : layout.links with
  | nil =>
    refine ⟨"Unable to load any CSV time series", ?_⟩
    simp only [loadScenarioData, hls, loadLinks]
    rfl
  | cons l rest =>
    have h1 := (hlinks l (by rw [hls]; exact List.mem_cons_self l rest)).1
    obtain ⟨e, he⟩ := loadDirectionSeries_none_error num (fetchF l) h1
    refine ⟨e, ?_⟩
    simp only [loadScenarioData, hls, loadLinks, he]
    rfl

/-- Single-link layout for the loader witnesses. -/
def layoutC7 : Layout := ⟨[ndA, ndB], [lkEx]⟩

/-- All link fetches fail permanently. -/
def fetchFail (_ : LinkDef) : FetchResult := FetchResult.failure

/-- No host scalar resources exist. -/
def noHostFetch (_ : NodeDef) : Option FetchResult := none

/-- C7 witness: with every link fetch failing, the whole load of the
single-link layout ends in an error. -/
theorem load_fails_without_grid_witness :
    (∀ l ∈ layoutC7.links, fetchYieldsData numConstOne (fetchFail l) = false ∧
      fetchYieldsData numConstOne (fetchFail l) = false) ∧
    ∃ msg, loadScenarioData numConstOne layoutC7 fetchFail fetchFail
      noHostFetch noHostFetch = Except.error msg :=
  ⟨fun _ _ => ⟨rfl, rfl⟩,
    load_fails_without_grid numConstOne layoutC7 fetchFail fetchFail
      noHostFetch noHostFetch (fun _ _ => ⟨rfl, rfl⟩)⟩

/-! ### C8: conforming a series to the established grid -/

/-- Reading any position of an all-zero buffer gives 0. -/
theorem replicate_getD_zero (k m : ℕ) :
    (List.replicate k (0 : ℚ)).getD m 0 = 0 := by
  induction k generalizing m with
  | zero => cases m <;> rfl
  | succ k ih =>
    cases m with
    | zero => rfl
    | succ m => exact ih m

/-- Zero-padding reads 0 at every index at or beyond the copied prefix. -/
theorem padZeros_getD_zero (l : List ℚ) (n j : ℕ) (hj : l.length ≤ j) :
    (padZeros l n).getD j 0 = 0 := by
  rw [padZeros, List.getD_append_right l (List.replicate (n - l.length) 0)
    0 j hj]
  exact replicate_getD_zero _ _

/-- Zero-padding a shorter series reaches exactly the grid length. -/
theorem padZeros_length (l : List ℚ) (n : ℕ) (h : l.length ≤ n) :
    (padZeros l n).length = n := by
  simp only [padZeros, List.length_append, List.length_replicate]
  omega

/-- C8: under an established grid of length `N`, a parsed series of length
`L ≠ N` is conformed rather than raised: for `L > N` it is truncated to
its first `N` samples, for `L < N` the `L` samples are copied into the
prefix of a length-`N` zero-filled buffer (so every index from `L` to
`N - 1` reads 0), and in both cases the load succeeds with the mismatch
reported through diagnostics. -/
theorem series_conformed (num : List Char → ℚ) (base : List ℚ)
    (ct : Option (List Char)) (body : List Char) (thr que : List ℚ)
    (hhtml : isHtmlPayload ct body = false)
    (hparse : parseCsv num body true = Except.ok (none, thr, que)) :
    (thr.length > base.length →
      loadDirectionSeries num (some base) (FetchResult.success ct body) =
        Except.ok ⟨⟨thr.take base.length, que.take base.length⟩,
          some base, true⟩) ∧
    (thr.length < base.length →
      loadDirectionSeries num (some base) (FetchResult.success ct body) =
        Except.ok ⟨⟨padZeros thr base.length, padZeros que base.length⟩,
          some base, true⟩ ∧
      (∀ j, thr.length ≤ j → j < base.length →
        (padZeros thr base.length).getD j 0 = 0) ∧
      (padZeros thr base.length).length = base.length) := by
  have hcond : ¬ (isHtmlPayload ct body = true) := by
    rw [hhtml]
    exact fun hc => Bool.noConfusion hc
  constructor
  · intro hgt
    have hne : ¬ thr.length = base.length := by omega
    simp only [loadDirectionSeries, if_neg hcond, Option.isSome_some,
      hparse]
    rw [if_neg hne, if_pos hgt]
  · intro hlt
    have hne : ¬ thr.length = base.length := by omega
    have hngt : ¬ thr.length > base.length := by omega
    refine ⟨?_, ?_, ?_⟩
    · simp only [loadDirectionSeries, if_neg hcond, Option.isSome_some,
        hparse]
      rw [if_neg hne, if_neg hngt]
    · intro j hj _
      exact padZeros_getD_zero thr base.length j hj
    · exact padZeros_length thr base.length (le_of_lt hlt)

/-- Body of a link CSV with a header and five data rows. -/
def bodyC8 : List Char :=
  ("t,a,b" ++ "\n1,1,1" ++ "\n1,1,1" ++ "\n1,1,1" ++ "\n1,1,1" ++
    "\n1,1,1").toList

/-- C8 witness: five supplied rows against the established 10-point grid
`[0,...,9]` are padded with zeros at indices 5 through 9, the load
succeeds, and the mismatch is flagged. -/
theorem series_conformed_witness :
    isHtmlPayload none bodyC8 = false ∧
    parseCsv numConstOne bodyC8 true =
      Except.ok (none, [1, 1, 1, 1, 1], [1, 1, 1, 1, 1]) ∧
    (([1, 1, 1, 1, 1] : List ℚ).length >
        ([0, 1, 2, 3, 4, 5, 6, 7, 8, 9] : List ℚ).length →
      loadDirectionSeries numConstOne
          (some [0, 1, 2, 3, 4, 5, 6, 7, 8, 9])
          (FetchResult.success none bodyC8) =
        Except.ok ⟨⟨([1, 1, 1, 1, 1] : List ℚ).take 10,
          ([1, 1, 1, 1, 1] : List ℚ).take 10⟩,
          some [0, 1, 2, 3, 4, 5, 6, 7, 8, 9], true⟩) ∧
    (([1, 1, 1, 1, 1] : List ℚ).length <
        ([0, 1, 2, 3, 4, 5, 6, 7, 8, 9] : List ℚ).length →
      loadDirectionSeries numConstOne
          (some [0, 1, 2, 3, 4, 5, 6, 7, 8, 9])
          (FetchResult.success none bodyC8) =
        Except.ok ⟨⟨padZeros [1, 1, 1, 1, 1] 10, padZeros [1, 1, 1, 1, 1] 10⟩,
          some [0, 1, 2, 3, 4, 5, 6, 7, 8, 9], true⟩ ∧
      (∀ j, ([1, 1, 1, 1, 1] : List ℚ).length ≤ j → j < 10 →
        (padZeros [1, 1, 1, 1, 1] 10).getD j 0 = 0) ∧
      (padZeros [1, 1, 1, 1, 1] 10).length = 10) :=
  ⟨by decide, by decide,
    (series_conformed numConstOne [0, 1, 2, 3, 4, 5, 6, 7, 8, 9] none
      bodyC8 [1, 1, 1, 1, 1] [1, 1, 1, 1, 1] (by decide) (by decide)).1,
    (series_conformed numConstOne [0, 1, 2, 3, 4, 5, 6, 7, 8, 9] none
      bodyC8 [1, 1, 1, 1, 1] [1, 1, 1, 1, 1] (by decide) (by decide)).2⟩

end NetworkViz
